import Mathlib

/-!
Shallow embedding of the streaming indicator engine and confluence scorer of
free-weight-strategy-mudrex-api (src/indicators/{ema,rsi,macd,atr}.py,
src/market_data/{open_interest,funding_rate}.py, src/strategy/engine.py).

Conventions of the embedding:
* Python floats are modelled as exact rationals (ℚ).
* The not-a-number sentinel (float('nan')) in derived-value lists is modelled
  by Option ℚ: none is NaN, some v is a numeric value.  Python comparisons
  with NaN are false; all comparisons in the embedded code go through helpers
  that return false on none, which matches that semantics.
* Python exceptions (raise ValueError) are modelled with Except.
* statistics.stdev is the sample standard deviation, a square root that does
  not exist inside ℚ.  The code only ever compares the z-score against fixed
  thresholds, so the embedding replaces each comparison z > c (c ≥ 0) by the
  equivalent exact test (x - mean > 0 ∧ (x - mean)^2 > c^2 * sampleVariance),
  and z < -c by the symmetric one; stdev == 0 (z forced to 0) agrees with
  these tests since a zero sample variance forces x = mean.
-/

set_option maxRecDepth 1000000

set_option maxHeartbeats 2000000

/-- Last `n` entries of a list (Python `l[-n:]`). -/
def takeLast (n : ℕ) (l : List α) : List α := l.drop (l.length - n)

/-- One step of the EMA recurrence: `ema = (price - prev) * multiplier + prev`
(src/indicators/ema.py line 36). -/
def emaStep (m prev p : ℚ) : ℚ := (p - prev) * m + prev

/-- The tail of the EMA series after the seed, one output per remaining price
(the loop of src/indicators/ema.py lines 35-37). -/
def emaScan (m : ℚ) : ℚ → List ℚ → List ℚ
  | _, [] => []
  | prev, p :: ps => emaStep m prev p :: emaScan m (emaStep m prev p) ps

/-- Final EMA value after folding the remaining prices into the seed. -/
def emaFold (m i : ℚ) (ps : List ℚ) : ℚ := ps.foldl (fun prev p => emaStep m prev p) i

/-- Simple average of a list (seed of the EMA, and statistics.mean). -/
def mean (l : List ℚ) : ℚ := l.sum / l.length

/-- src/indicators/ema.py `calculate_ema`: NaN for the first `period - 1`
positions, then the SMA seed, then the EMA recurrence. -/
def calculate_ema (prices : List ℚ) (period : ℕ) : List (Option ℚ) :=
  if prices.length < period then List.replicate prices.length none
  else
    let m : ℚ := 2 / (period + 1)
    let sma := mean (prices.take period)
    List.replicate (period - 1) none ++ (sma :: emaScan m sma (prices.drop period)).map some

theorem emaScan_length (m : ℚ) : ∀ (ps : List ℚ) (i : ℚ), (emaScan m i ps).length = ps.length
  | [], _ => rfl
  | _ :: ps, i => by simp [emaScan, emaScan_length m ps]

theorem calculate_ema_length (prices : List ℚ) (period : ℕ) (hp : 1 ≤ period) :
    (calculate_ema prices period).length = prices.length := by
  unfold calculate_ema
  by_cases h : prices.length < period
  · simp [h]
  · push_neg at h
    simp only [if_neg (not_lt.mpr h)]
    simp only [List.length_append, List.length_replicate, List.length_map,
      List.length_cons, emaScan_length, List.length_drop]
    omega

/-- The last element of the seeded EMA chain is the fold of the remaining
prices into the seed. -/
theorem emaScan_cons_getLast (m : ℚ) :
    ∀ (ps : List ℚ) (i : ℚ), (i :: emaScan m i ps).getLast? = some (emaFold m i ps)
  | [], i => rfl
  | p :: ps, i => by
    have h := emaScan_cons_getLast m ps (emaStep m i p)
    simp only [emaScan, emaFold] at *
    rw [List.getLast?_cons_cons]
    exact h

/-- src/indicators/rsi.py lines 43-47 and 54-58: one RSI output from the
current average gain/loss, forcing 100 when the average loss is 0. -/
def rsiPoint (g l : ℚ) : ℚ := if l = 0 then 100 else 100 - 100 / (1 + g / l)

/-- The Wilder-smoothing loop of src/indicators/rsi.py lines 50-58, consuming
(gain, loss) pairs and emitting one RSI value per pair. -/
def rsiScan (period : ℕ) : ℚ → ℚ → List (ℚ × ℚ) → List ℚ
  | _, _, [] => []
  | g, l, gl :: rest =>
    let g' := (g * ((period : ℚ) - 1) + gl.1) / period
    let l' := (l * ((period : ℚ) - 1) + gl.2) / period
    rsiPoint g' l' :: rsiScan period g' l' rest

/-- Price changes `prices[i] - prices[i-1]` (src/indicators/rsi.py lines 28-30). -/
def priceChanges (prices : List ℚ) : List ℚ :=
  List.zipWith (fun next prev => next - prev) (prices.drop 1) prices

/-- src/indicators/rsi.py `calculate_rsi`: Wilder's RSI with simple-average
seeding over the first `period` deltas. -/
def calculate_rsi (prices : List ℚ) (period : ℕ) : List (Option ℚ) :=
  if prices.length < period + 1 then List.replicate prices.length none
  else
    let changes := priceChanges prices
    let gains := changes.map (fun c => max 0 c)
    let losses := changes.map (fun c => |min 0 c|)
    let avg_gain := mean (gains.take period)
    let avg_loss := mean (losses.take period)
    List.replicate period none ++
      (rsiPoint avg_gain avg_loss ::
        rsiScan period avg_gain avg_loss ((gains.drop period).zip (losses.drop period))).map some

/-- Subtraction on NaN-tagged values: NaN if either side is NaN
(the NaN checks of src/indicators/macd.py lines 42-46 and 56-60). -/
def subOpt : Option ℚ → Option ℚ → Option ℚ
  | some a, some b => some (a - b)
  | _, _ => none

/-- src/indicators/macd.py `calculate_macd`: MACD line, signal line and
histogram, each the length of the input. -/
def calculate_macd (prices : List ℚ) (fast_period slow_period signal_period : ℕ) :
    List (Option ℚ) × List (Option ℚ) × List (Option ℚ) :=
  if prices.length < slow_period then
    let nan_list := List.replicate prices.length (none : Option ℚ)
    (nan_list, nan_list, nan_list)
  else
    let fast_ema := calculate_ema prices fast_period
    let slow_ema := calculate_ema prices slow_period
    let macd_line := List.zipWith subOpt fast_ema slow_ema
    let valid_macd := macd_line.filterMap id
    let signal_line := List.replicate (macd_line.length - valid_macd.length) (none : Option ℚ) ++
      calculate_ema valid_macd signal_period
    let histogram := List.zipWith subOpt macd_line signal_line
    (macd_line, signal_line, histogram)

/-- src/indicators/atr.py `calculate_true_range`.  The Python function raises
ValueError on mismatched lengths; the raise is modelled with Except. -/
def calculate_true_range (highs lows closes : List ℚ) : Except String (List ℚ) :=
  if highs.length ≠ lows.length ∨ lows.length ≠ closes.length then
    .error "All price lists must have same length"
  else if highs.length < 2 then
    match highs, lows with
    | h :: _, l :: _ => .ok [h - l]
    | _, _ => .ok []
  else
    match highs, lows with
    | h0 :: hrest, l0 :: lrest =>
      .ok ((h0 - l0) ::
        (List.zipWith (fun (hl : ℚ × ℚ) (pc : ℚ) =>
            max (hl.1 - hl.2) (max |hl.1 - pc| |hl.2 - pc|))
          (hrest.zip lrest) closes))
    | _, _ => .ok []

/-- The Wilder-smoothing loop of src/indicators/atr.py lines 80-82. -/
def atrScan (period : ℕ) : ℚ → List ℚ → List ℚ
  | _, [] => []
  | prev, tr :: rest =>
    let a := (prev * ((period : ℚ) - 1) + tr) / period
    a :: atrScan period a rest

/-- src/indicators/atr.py `calculate_atr`; propagates the ValueError of
`calculate_true_range`. -/
def calculate_atr (highs lows closes : List ℚ) (period : ℕ) :
    Except String (List (Option ℚ)) :=
  match calculate_true_range highs lows closes with
  | .error e => .error e
  | .ok tr_values =>
    if tr_values.length < period then
      .ok (List.replicate tr_values.length none)
    else
      let first_atr := mean (tr_values.take period)
      .ok (List.replicate (period - 1) none ++
        (first_atr :: atrScan period first_atr (tr_values.drop period)).map some)

/-- NaN-aware extraction of the last derived value: the `if list and not
isnan(list[-1])` pattern shared by all indicators. -/
def lastDefined (l : List (Option ℚ)) : Option ℚ := (l.getLast?).bind id

/-- src/indicators/ema.py `EMAIndicator` (dataclass state). -/
structure EMAIndicator where
  fast_period : ℕ := 9
  slow_period : ℕ := 21
  _prices : List ℚ := []
  _fast_ema : List (Option ℚ) := []
  _slow_ema : List (Option ℚ) := []
  _prev_fast : Option ℚ := none
  _prev_slow : Option ℚ := none
deriving DecidableEq

/-- src/indicators/ema.py `EMAIndicator.update`: append the price, remember
the previous last EMA entries, recompute both EMA series, trim to 500. -/
def EMAIndicator.update (s : EMAIndicator) (price : ℚ) : EMAIndicator :=
  let prices' := s._prices ++ [price]
  let prev_fast' := (s._fast_ema.getLast?).getD s._prev_fast
  let prev_slow' := (s._slow_ema.getLast?).getD s._prev_slow
  let fast' := calculate_ema prices' s.fast_period
  let slow' := calculate_ema prices' s.slow_period
  if prices'.length > 500 then
    { s with _prices := takeLast 500 prices', _fast_ema := takeLast 500 fast',
             _slow_ema := takeLast 500 slow',
             _prev_fast := prev_fast', _prev_slow := prev_slow' }
  else
    { s with _prices := prices', _fast_ema := fast', _slow_ema := slow',
             _prev_fast := prev_fast', _prev_slow := prev_slow' }

def EMAIndicator.fast_value (s : EMAIndicator) : Option ℚ := lastDefined s._fast_ema

def EMAIndicator.slow_value (s : EMAIndicator) : Option ℚ := lastDefined s._slow_ema

def EMAIndicator.is_bullish (s : EMAIndicator) : Bool :=
  match s.fast_value, s.slow_value with
  | some f, some sl => f > sl
  | _, _ => false

def EMAIndicator.is_bearish (s : EMAIndicator) : Bool :=
  match s.fast_value, s.slow_value with
  | some f, some sl => f < sl
  | _, _ => false

/-- src/indicators/ema.py `is_bullish_crossover`.  A NaN stored in
`_prev_fast`/`_prev_slow` makes the Python comparisons false, which
coincides with the none branch here. -/
def EMAIndicator.is_bullish_crossover (s : EMAIndicator) : Bool :=
  match s._prev_fast, s._prev_slow, s.fast_value, s.slow_value with
  | some pf, some psl, some f, some sl => pf ≤ psl ∧ f > sl
  | _, _, _, _ => false

def EMAIndicator.is_bearish_crossover (s : EMAIndicator) : Bool :=
  match s._prev_fast, s._prev_slow, s.fast_value, s.slow_value with
  | some pf, some psl, some f, some sl => pf ≥ psl ∧ f < sl
  | _, _, _, _ => false

def EMAIndicator.is_ready (s : EMAIndicator) : Bool :=
  s.fast_value.isSome ∧ s.slow_value.isSome

/-- src/indicators/rsi.py `RSIIndicator` (dataclass state). -/
structure RSIIndicator where
  period : ℕ := 14
  oversold : ℚ := 30
  overbought : ℚ := 70
  _prices : List ℚ := []
  _rsi_values : List (Option ℚ) := []
  _prev_rsi : Option ℚ := none
deriving DecidableEq

/-- src/indicators/rsi.py `RSIIndicator.update`.  Unlike EMA, `_prev_rsi` is
only overwritten when the previous last value is defined (not NaN). -/
def RSIIndicator.update (s : RSIIndicator) (price : ℚ) : RSIIndicator :=
  let prices' := s._prices ++ [price]
  let prev' := match lastDefined s._rsi_values with
    | some v => some v
    | none => s._prev_rsi
  let rsi' := calculate_rsi prices' s.period
  if prices'.length > 500 then
    { s with _prices := takeLast 500 prices', _rsi_values := takeLast 500 rsi',
             _prev_rsi := prev' }
  else
    { s with _prices := prices', _rsi_values := rsi', _prev_rsi := prev' }

def RSIIndicator.value (s : RSIIndicator) : Option ℚ := lastDefined s._rsi_values

def RSIIndicator.is_oversold (s : RSIIndicator) : Bool :=
  match s.value with
  | some v => v < s.oversold
  | none => false

def RSIIndicator.is_overbought (s : RSIIndicator) : Bool :=
  match s.value with
  | some v => v > s.overbought
  | none => false

def RSIIndicator.is_recovering_from_oversold (s : RSIIndicator) : Bool :=
  match s.value, s._prev_rsi with
  | some v, some pv => pv < s.oversold ∧ v > pv ∧ v < 50
  | _, _ => false

def RSIIndicator.is_falling_from_overbought (s : RSIIndicator) : Bool :=
  match s.value, s._prev_rsi with
  | some v, some pv => pv > s.overbought ∧ v < pv ∧ v > 50
  | _, _ => false

def RSIIndicator.is_ready (s : RSIIndicator) : Bool := s.value.isSome

/-- src/indicators/macd.py `MACDIndicator` (dataclass state). -/
structure MACDIndicator where
  fast_period : ℕ := 12
  slow_period : ℕ := 26
  signal_period : ℕ := 9
  _prices : List ℚ := []
  _macd_line : List (Option ℚ) := []
  _signal_line : List (Option ℚ) := []
  _histogram : List (Option ℚ) := []
  _prev_macd : Option ℚ := none
  _prev_signal : Option ℚ := none
  _prev_histogram : Option ℚ := none
deriving DecidableEq

/-- src/indicators/macd.py `MACDIndicator.update`; the previous values are
only overwritten when defined, as in RSI. -/
def MACDIndicator.update (s : MACDIndicator) (price : ℚ) : MACDIndicator :=
  let prices' := s._prices ++ [price]
  let keep : List (Option ℚ) → Option ℚ → Option ℚ := fun l old =>
    match lastDefined l with
    | some v => some v
    | none => old
  let prev_macd' := keep s._macd_line s._prev_macd
  let prev_signal' := keep s._signal_line s._prev_signal
  let prev_histogram' := keep s._histogram s._prev_histogram
  let r := calculate_macd prices' s.fast_period s.slow_period s.signal_period
  if prices'.length > 500 then
    { s with _prices := takeLast 500 prices', _macd_line := takeLast 500 r.1,
             _signal_line := takeLast 500 r.2.1, _histogram := takeLast 500 r.2.2,
             _prev_macd := prev_macd', _prev_signal := prev_signal',
             _prev_histogram := prev_histogram' }
  else
    { s with _prices := prices', _macd_line := r.1, _signal_line := r.2.1,
             _histogram := r.2.2, _prev_macd := prev_macd',
             _prev_signal := prev_signal', _prev_histogram := prev_histogram' }

def MACDIndicator.macd (s : MACDIndicator) : Option ℚ := lastDefined s._macd_line

def MACDIndicator.signal (s : MACDIndicator) : Option ℚ := lastDefined s._signal_line

def MACDIndicator.histogramValue (s : MACDIndicator) : Option ℚ := lastDefined s._histogram

def MACDIndicator.is_bullish (s : MACDIndicator) : Bool :=
  match s.macd, s.signal with
  | some m, some sg => m > sg
  | _, _ => false

def MACDIndicator.is_bullish_crossover (s : MACDIndicator) : Bool :=
  match s._prev_macd, s._prev_signal, s.macd, s.signal with
  | some pm, some psg, some m, some sg => pm ≤ psg ∧ m > sg
  | _, _, _, _ => false

def MACDIndicator.is_histogram_rising (s : MACDIndicator) : Bool :=
  match s.histogramValue, s._prev_histogram with
  | some h, some ph => h > ph
  | _, _ => false

def MACDIndicator.is_ready (s : MACDIndicator) : Bool :=
  s.macd.isSome ∧ s.signal.isSome

/-- src/indicators/atr.py `ATRIndicator` (dataclass state). -/
structure ATRIndicator where
  period : ℕ := 14
  _highs : List ℚ := []
  _lows : List ℚ := []
  _closes : List ℚ := []
  _atr_values : List (Option ℚ) := []
deriving DecidableEq

/-- src/indicators/atr.py `ATRIndicator.update`.  The three lists always have
equal lengths here, so `calculate_atr` cannot hit its error branch; the
(unreachable) error case keeps the old values. -/
def ATRIndicator.update (s : ATRIndicator) (high low close : ℚ) : ATRIndicator :=
  let highs' := s._highs ++ [high]
  let lows' := s._lows ++ [low]
  let closes' := s._closes ++ [close]
  let atr' := match calculate_atr highs' lows' closes' s.period with
    | .ok v => v
    | .error _ => s._atr_values
  if highs'.length > 500 then
    { s with _highs := takeLast 500 highs', _lows := takeLast 500 lows',
             _closes := takeLast 500 closes', _atr_values := takeLast 500 atr' }
  else
    { s with _highs := highs', _lows := lows', _closes := closes',
             _atr_values := atr' }

def ATRIndicator.value (s : ATRIndicator) : Option ℚ := lastDefined s._atr_values

def ATRIndicator.get_stoploss_distance (s : ATRIndicator) (multiplier : ℚ) : Option ℚ :=
  match s.value with
  | none => none
  | some v => some (v * multiplier)

/-- src/indicators/atr.py `calculate_stoploss`: LONG subtracts the distance,
anything else adds it. -/
def ATRIndicator.calculate_stoploss (s : ATRIndicator) (entry_price : ℚ) (side : String)
    (multiplier : ℚ) : Option ℚ :=
  match s.get_stoploss_distance multiplier with
  | none => none
  | some d => if side.toUpper = "LONG" then some (entry_price - d) else some (entry_price + d)

/-- src/indicators/atr.py `calculate_takeprofit`. -/
def ATRIndicator.calculate_takeprofit (s : ATRIndicator) (entry_price : ℚ) (side : String)
    (risk_reward : ℚ) (sl_multiplier : ℚ) : Option ℚ :=
  match s.get_stoploss_distance sl_multiplier with
  | none => none
  | some d =>
    let tp_distance := d * risk_reward
    if side.toUpper = "LONG" then some (entry_price + tp_distance)
    else some (entry_price - tp_distance)

def ATRIndicator.is_ready (s : ATRIndicator) : Bool := s.value.isSome

/-- Sample variance (square of statistics.stdev).  For a singleton list the ℚ
division by zero yields 0, matching the StatisticsError branch that forces
the z-score to 0. -/
def sampleVar (l : List ℚ) : ℚ :=
  ((l.map (fun x => (x - mean l) ^ 2)).sum) / ((l.length : ℚ) - 1)

/-- Exact version of "z-score of the last reading over the trailing window
is > c" for a threshold c ≥ 0, as used by `_calculate_z_score` callers.
With d = last - mean and s = stdev ≥ 0: d / s > c ↔ d > 0 ∧ d^2 > c^2·s^2,
and a zero stdev (z forced to 0) makes both sides false. -/
def zScoreGT (history : List ℚ) (lookback : ℕ) (c : ℚ) : Bool :=
  if history.length < lookback then false
  else
    let recent := takeLast lookback history
    let d := history.getLastD 0 - mean recent
    decide (0 < d) && decide (c ^ 2 * sampleVar recent < d ^ 2)

/-- Exact version of "z-score < c" for a threshold c ≤ 0. -/
def zScoreLT (history : List ℚ) (lookback : ℕ) (c : ℚ) : Bool :=
  if history.length < lookback then false
  else
    let recent := takeLast lookback history
    let d := history.getLastD 0 - mean recent
    decide (d < 0) && decide (c ^ 2 * sampleVar recent < d ^ 2)

/-- Exact version of "|z-score| > c" for a threshold c ≥ 0. -/
def zScoreAbsGT (history : List ℚ) (lookback : ℕ) (c : ℚ) : Bool :=
  if history.length < lookback then false
  else
    let recent := takeLast lookback history
    let d := history.getLastD 0 - mean recent
    decide (c ^ 2 * sampleVar recent < d ^ 2)

/-- src/market_data/open_interest.py `OISignal`.  The numeric z-score field is
replaced by the exact extremity test `is_extreme` (see the header comment);
nothing in the engine reads the z-score itself. -/
structure OISignal where
  is_rising : Bool
  change_pct : ℚ
  is_extreme : Bool
  confirmation : String
deriving DecidableEq

/-- src/market_data/open_interest.py `OpenInterestAnalyzer` state. -/
structure OpenInterestAnalyzer where
  lookback_period : ℕ := 20
  extreme_threshold : ℚ := 2
  _oi_history : List ℚ := []
  _price_history : List ℚ := []
deriving DecidableEq

def OpenInterestAnalyzer.update_oi_only (a : OpenInterestAnalyzer) (open_interest : ℚ) :
    OpenInterestAnalyzer :=
  let h := a._oi_history ++ [open_interest]
  if h.length > a.lookback_period * 2 then
    { a with _oi_history := takeLast (a.lookback_period * 2) h }
  else
    { a with _oi_history := h }

def OpenInterestAnalyzer.set_price (a : OpenInterestAnalyzer) (price : ℚ) :
    OpenInterestAnalyzer :=
  let h := a._price_history ++ [price]
  if h.length > a.lookback_period * 2 then
    { a with _price_history := takeLast (a.lookback_period * 2) h }
  else
    { a with _price_history := h }

/-- src/market_data/open_interest.py `_get_confirmation`. -/
def OpenInterestAnalyzer.get_confirmation (a : OpenInterestAnalyzer) (oi_rising : Bool) :
    String :=
  if a._price_history.length < 2 then "NEUTRAL"
  else
    let price_rising :=
      decide (a._price_history.getLastD 0 > (a._price_history.dropLast).getLastD 0)
    if oi_rising then (if price_rising then "BULLISH" else "BEARISH")
    else "NEUTRAL"

/-- src/market_data/open_interest.py `get_signal`. -/
def OpenInterestAnalyzer.get_signal (a : OpenInterestAnalyzer) : OISignal :=
  if a._oi_history.length < 2 then
    { is_rising := false, change_pct := 0, is_extreme := false, confirmation := "NEUTRAL" }
  else
    let current_oi := a._oi_history.getLastD 0
    let previous_oi := (a._oi_history.dropLast).getLastD 0
    let change_pct :=
      if previous_oi = 0 then 0 else ((current_oi - previous_oi) / previous_oi) * 100
    let is_rising := decide (change_pct > 0)
    let is_extreme := zScoreAbsGT a._oi_history a.lookback_period a.extreme_threshold
    { is_rising := is_rising, change_pct := change_pct, is_extreme := is_extreme,
      confirmation := a.get_confirmation is_rising }

/-- src/market_data/funding_rate.py `FundingSignal`; z-score replaced by the
exact extremity tests as for OI. -/
structure FundingSignal where
  rate : ℚ
  rate_annualized : ℚ
  is_extreme_positive : Bool
  is_extreme_negative : Bool
  sentiment : String
  squeeze_risk : String
deriving DecidableEq

/-- src/market_data/funding_rate.py `FundingRateAnalyzer` state. -/
structure FundingRateAnalyzer where
  lookback_period : ℕ := 50
  extreme_threshold_z : ℚ := 2
  extreme_threshold_rate : ℚ := 5 / 10000
  _funding_history : List ℚ := []
deriving DecidableEq

def FundingRateAnalyzer.update (a : FundingRateAnalyzer) (funding_rate : ℚ) :
    FundingRateAnalyzer :=
  let h := a._funding_history ++ [funding_rate]
  if h.length > a.lookback_period * 2 then
    { a with _funding_history := takeLast (a.lookback_period * 2) h }
  else
    { a with _funding_history := h }

/-- src/market_data/funding_rate.py `get_signal`. -/
def FundingRateAnalyzer.get_signal (a : FundingRateAnalyzer) : FundingSignal :=
  if a._funding_history.isEmpty then
    { rate := 0, rate_annualized := 0, is_extreme_positive := false,
      is_extreme_negative := false, sentiment := "NEUTRAL", squeeze_risk := "NONE" }
  else
    let current_rate := a._funding_history.getLastD 0
    let rate_annualized := current_rate * 3 * 365 * 100
    let is_extreme_positive :=
      zScoreGT a._funding_history a.lookback_period a.extreme_threshold_z ||
        decide (current_rate > a.extreme_threshold_rate)
    let is_extreme_negative :=
      zScoreLT a._funding_history a.lookback_period (-a.extreme_threshold_z) ||
        decide (current_rate < -a.extreme_threshold_rate)
    let sentiment :=
      if is_extreme_positive then "LONG_HEAVY"
      else if is_extreme_negative then "SHORT_HEAVY"
      else if current_rate > 1 / 10000 then "LONG_HEAVY"
      else if current_rate < -(1 / 10000) then "SHORT_HEAVY"
      else "NEUTRAL"
    let squeeze_risk :=
      if is_extreme_positive then "LONG_SQUEEZE"
      else if is_extreme_negative then "SHORT_SQUEEZE"
      else "NONE"
    { rate := current_rate, rate_annualized := rate_annualized,
      is_extreme_positive := is_extreme_positive,
      is_extreme_negative := is_extreme_negative,
      sentiment := sentiment, squeeze_risk := squeeze_risk }

/-- Modelled from the spec: src/strategy/signals.py is imported by the engine
and the tests but absent from the sources.  The spec's §3 Signal record gives
`type ∈ {LONG, SHORT, NEUTRAL}`; `.value` is the side string the engine
passes to the ATR price methods. -/
inductive SignalType where
  | LONG
  | SHORT
  | NEUTRAL
deriving DecidableEq

def SignalType.value : SignalType → String
  | .LONG => "LONG"
  | .SHORT => "SHORT"
  | .NEUTRAL => "NEUTRAL"

/-- Modelled from the spec: `IndicatorStatus` of the missing
src/strategy/signals.py, a fixed record of the boolean/enum predicates; the
field set and names are exactly those the engine constructs in
`_evaluate_indicators`, with False/"NEUTRAL" defaults as in the tests. -/
structure IndicatorStatus where
  ema_bullish : Bool := false
  ema_crossover : Bool := false
  rsi_oversold : Bool := false
  rsi_overbought : Bool := false
  rsi_recovering : Bool := false
  rsi_falling : Bool := false
  macd_bullish : Bool := false
  macd_crossover : Bool := false
  macd_histogram_rising : Bool := false
  oi_rising : Bool := false
  oi_confirmation : String := "NEUTRAL"
  funding_sentiment : String := "NEUTRAL"
  funding_squeeze_risk : String := "NONE"
deriving DecidableEq

/-- Modelled from the spec: the `Signal` record of the missing
src/strategy/signals.py, with the fields the spec's §3 lists plus the extra
fields the engine passes (leverage, position size, status); entries the
engine omits for a neutral signal keep their defaults. -/
structure Signal where
  symbol : String
  signal_type : SignalType
  confluence_score : ℤ
  indicators_aligned : ℕ
  entry_price : ℚ := 0
  stoploss_price : Option ℚ := none
  takeprofit_price : Option ℚ := none
  leverage : ℤ := 0
  position_size_pct : ℚ := 0
  indicator_status : Option IndicatorStatus := none
  reason : String := ""
deriving DecidableEq

/-- The configuration slice the engine reads (src/config.py defaults). -/
structure Config where
  min_confluence_score : ℤ := 60
  min_indicators_aligned : ℕ := 3
  trade_cooldown : ℚ := 300
  stoploss_atr_multiplier : ℚ := 3 / 2
  takeprofit_ratio : ℚ := 2
  default_leverage : ℤ := 5
  max_capital_per_trade : ℚ := 2
deriving DecidableEq

/-- src/strategy/engine.py `SymbolState`. -/
structure SymbolState where
  ema : EMAIndicator := {}
  rsi : RSIIndicator := {}
  macd : MACDIndicator := {}
  atr : ATRIndicator := {}
  oi : OpenInterestAnalyzer := {}
  funding : FundingRateAnalyzer := {}
  last_price : ℚ := 0
  last_signal_time : ℚ := 0
  last_signal_type : SignalType := .NEUTRAL
deriving DecidableEq

/-- src/strategy/engine.py `StrategyEngine`: the configuration plus the
per-symbol registry (`_symbols`), modelled as an association list. -/
structure StrategyEngine where
  config : Config
  _symbols : List (String × SymbolState)
deriving DecidableEq

def StrategyEngine.WEIGHT_EMA : ℤ := 20
def StrategyEngine.WEIGHT_RSI : ℤ := 20
def StrategyEngine.WEIGHT_MACD : ℤ := 20
def StrategyEngine.WEIGHT_OI : ℤ := 20
def StrategyEngine.WEIGHT_FUNDING : ℤ := 20

def StrategyEngine.lookup (e : StrategyEngine) (symbol : String) : Option SymbolState :=
  (e._symbols.find? (fun p => p.1 = symbol)).map Prod.snd

def StrategyEngine.setState (e : StrategyEngine) (symbol : String) (st : SymbolState) :
    StrategyEngine :=
  { e with _symbols := e._symbols.map (fun p => if p.1 = symbol then (p.1, st) else p) }

/-- src/strategy/engine.py `_evaluate_indicators`. -/
def StrategyEngine.evaluate_indicators (state : SymbolState) : IndicatorStatus :=
  let oi_signal := state.oi.get_signal
  let funding_signal := state.funding.get_signal
  { ema_bullish := state.ema.is_bullish,
    ema_crossover := state.ema.is_bullish_crossover,
    rsi_oversold := state.rsi.is_oversold,
    rsi_overbought := state.rsi.is_overbought,
    rsi_recovering := state.rsi.is_recovering_from_oversold,
    rsi_falling := state.rsi.is_falling_from_overbought,
    macd_bullish := state.macd.is_bullish,
    macd_crossover := state.macd.is_bullish_crossover,
    macd_histogram_rising := state.macd.is_histogram_rising,
    oi_rising := oi_signal.is_rising,
    oi_confirmation := oi_signal.confirmation,
    funding_sentiment := funding_signal.sentiment,
    funding_squeeze_risk := funding_signal.squeeze_risk }

/-- src/strategy/engine.py `_calculate_long_score`. -/
def StrategyEngine.calculate_long_score (status : IndicatorStatus) : ℤ × ℕ :=
  let score : ℤ := 0
  let aligned : ℕ := 0
  let (score, aligned) :=
    if status.ema_bullish then (score + StrategyEngine.WEIGHT_EMA, aligned + 1)
    else if status.ema_crossover then (score + StrategyEngine.WEIGHT_EMA, aligned + 1)
    else (score, aligned)
  let (score, aligned) :=
    if status.rsi_recovering || status.rsi_oversold then
      (score + StrategyEngine.WEIGHT_RSI, aligned + 1)
    else if status.rsi_overbought then (score - 10, aligned)
    else (score, aligned)
  let (score, aligned) :=
    if status.macd_bullish || status.macd_crossover then
      (score + StrategyEngine.WEIGHT_MACD, aligned + 1)
    else (score, aligned)
  let (score, aligned) :=
    if status.oi_rising && status.oi_confirmation = "BULLISH" then
      (score + StrategyEngine.WEIGHT_OI, aligned + 1)
    else if status.oi_rising then (score + StrategyEngine.WEIGHT_OI / 2, aligned)
    else (score, aligned)
  let (score, aligned) :=
    if status.funding_squeeze_risk = "SHORT_SQUEEZE" then
      (score + StrategyEngine.WEIGHT_FUNDING, aligned + 1)
    else if status.funding_sentiment = "SHORT_HEAVY" then
      (score + StrategyEngine.WEIGHT_FUNDING / 2, aligned)
    else if status.funding_sentiment = "LONG_HEAVY" then (score - 10, aligned)
    else (score, aligned)
  (max 0 (min 100 score), aligned)

/-- src/strategy/engine.py `_calculate_short_score`. -/
def StrategyEngine.calculate_short_score (status : IndicatorStatus) : ℤ × ℕ :=
  let score : ℤ := 0
  let aligned : ℕ := 0
  let (score, aligned) :=
    if !status.ema_bullish && !status.ema_crossover then
      (score + StrategyEngine.WEIGHT_EMA, aligned + 1)
    else (score, aligned)
  let (score, aligned) :=
    if status.rsi_falling || status.rsi_overbought then
      (score + StrategyEngine.WEIGHT_RSI, aligned + 1)
    else if status.rsi_oversold then (score - 10, aligned)
    else (score, aligned)
  let (score, aligned) :=
    if !status.macd_bullish then (score + StrategyEngine.WEIGHT_MACD, aligned + 1)
    else (score, aligned)
  let (score, aligned) :=
    if status.oi_rising && status.oi_confirmation = "BEARISH" then
      (score + StrategyEngine.WEIGHT_OI, aligned + 1)
    else if status.oi_rising then (score + StrategyEngine.WEIGHT_OI / 2, aligned)
    else (score, aligned)
  let (score, aligned) :=
    if status.funding_squeeze_risk = "LONG_SQUEEZE" then
      (score + StrategyEngine.WEIGHT_FUNDING, aligned + 1)
    else if status.funding_sentiment = "LONG_HEAVY" then
      (score + StrategyEngine.WEIGHT_FUNDING / 2, aligned)
    else if status.funding_sentiment = "SHORT_HEAVY" then (score - 10, aligned)
    else (score, aligned)
  (max 0 (min 100 score), aligned)

/-- src/strategy/engine.py `_neutral_signal`. -/
def StrategyEngine.neutral_signal (symbol : String) (reason : String := "") : Signal :=
  { symbol := symbol, signal_type := .NEUTRAL, confluence_score := 0,
    indicators_aligned := 0, reason := reason }

/-- src/strategy/engine.py `_check_cooldown`: true when no cooldown applies.
`now` stands for `time.time()`. -/
def StrategyEngine.check_cooldown (cfg : Config) (state : SymbolState) (now : ℚ) : Bool :=
  if state.last_signal_time = 0 then true
  else decide (now - state.last_signal_time ≥ cfg.trade_cooldown)

/-- src/strategy/engine.py `_indicators_ready`. -/
def StrategyEngine.indicators_ready (state : SymbolState) : Bool :=
  state.ema.is_ready && state.rsi.is_ready && state.macd.is_ready && state.atr.is_ready

/-- The reason list built in src/strategy/engine.py lines 343-366. -/
def StrategyEngine.signalReasons (signal_type : SignalType) (status : IndicatorStatus) :
    List String :=
  if signal_type = .LONG then
    (if status.ema_bullish then ["EMA↑"] else []) ++
    (if status.rsi_recovering || status.rsi_oversold then ["RSI oversold"] else []) ++
    (if status.macd_bullish then ["MACD↑"] else []) ++
    (if status.oi_rising then ["OI↑"] else []) ++
    (if status.funding_squeeze_risk = "SHORT_SQUEEZE" then ["Short squeeze risk"] else [])
  else
    (if !status.ema_bullish then ["EMA↓"] else []) ++
    (if status.rsi_falling || status.rsi_overbought then ["RSI overbought"] else []) ++
    (if !status.macd_bullish then ["MACD↓"] else []) ++
    (if status.oi_rising then ["OI↑"] else []) ++
    (if status.funding_squeeze_risk = "LONG_SQUEEZE" then ["Long squeeze risk"] else [])

/-- src/strategy/engine.py `_create_signal`: builds the actionable signal and
mutates the symbol state (`last_signal_time := time.time()`); returned here as
the signal together with the updated state. -/
def StrategyEngine.create_signal (cfg : Config) (symbol : String)
    (signal_type : SignalType) (score : ℤ) (aligned : ℕ) (state : SymbolState)
    (status : IndicatorStatus) (now : ℚ) : Signal × SymbolState :=
  let entry_price := state.last_price
  let stoploss_price :=
    state.atr.calculate_stoploss entry_price signal_type.value cfg.stoploss_atr_multiplier
  let takeprofit_price :=
    state.atr.calculate_takeprofit entry_price signal_type.value cfg.takeprofit_ratio
      cfg.stoploss_atr_multiplier
  let state' := { state with last_signal_time := now, last_signal_type := signal_type }
  ({ symbol := symbol, signal_type := signal_type, confluence_score := score,
     indicators_aligned := aligned, entry_price := entry_price,
     stoploss_price := stoploss_price, takeprofit_price := takeprofit_price,
     leverage := cfg.default_leverage, position_size_pct := cfg.max_capital_per_trade,
     indicator_status := some status,
     reason := String.intercalate ", " (StrategyEngine.signalReasons signal_type status) },
   state')

/-- src/strategy/engine.py `evaluate`, with `time.time()` passed in as `now`;
returns the signal together with the (possibly) updated engine. -/
def StrategyEngine.evaluate (e : StrategyEngine) (symbol : String) (now : ℚ) :
    Signal × StrategyEngine :=
  match e.lookup symbol with
  | none => (StrategyEngine.neutral_signal symbol, e)
  | some state =>
    if !StrategyEngine.check_cooldown e.config state now then
      (StrategyEngine.neutral_signal symbol "Cooldown active", e)
    else if !StrategyEngine.indicators_ready state then
      (StrategyEngine.neutral_signal symbol "Indicators warming up", e)
    else
      let indicator_status := StrategyEngine.evaluate_indicators state
      let ls := StrategyEngine.calculate_long_score indicator_status
      let ss := StrategyEngine.calculate_short_score indicator_status
      if ls.1 ≥ e.config.min_confluence_score ∧ ls.2 ≥ e.config.min_indicators_aligned then
        let r := StrategyEngine.create_signal e.config symbol .LONG ls.1 ls.2 state
          indicator_status now
        (r.1, e.setState symbol r.2)
      else if ss.1 ≥ e.config.min_confluence_score ∧
          ss.2 ≥ e.config.min_indicators_aligned then
        let r := StrategyEngine.create_signal e.config symbol .SHORT ss.1 ss.2 state
          indicator_status now
        (r.1, e.setState symbol r.2)
      else
        (StrategyEngine.neutral_signal symbol
          ("Confluence too low (L:" ++ toString ls.1 ++ "% S:" ++ toString ss.1 ++ "%)"), e)

/-- Feeding a price series into a fresh EMA indicator, one update per price
(the per-candle path of `StrategyEngine.update_kline`). -/
def emaRun (fp sp : ℕ) (ps : List ℚ) : EMAIndicator :=
  ps.foldl (fun s p => s.update p) { fast_period := fp, slow_period := sp }

/-- Feeding a price series into a fresh RSI indicator. -/
def rsiRun (period : ℕ) (ps : List ℚ) : RSIIndicator :=
  ps.foldl (fun s p => s.update p) { period := period }

/-- Feeding a price series into a fresh MACD indicator. -/
def macdRun (fp sp sg : ℕ) (ps : List ℚ) : MACDIndicator :=
  ps.foldl (fun s p => s.update p)
    { fast_period := fp, slow_period := sp, signal_period := sg }

/-- The not-a-number sentinel entries of a derived-value list form an initial
segment: any NaN entry has only NaN entries before it (equivalently, every
entry before the first defined value is NaN, never numeric). -/
def nanFront (l : List (Option ℚ)) : Prop :=
  ∀ i j : ℕ, i ≤ j → l[j]? = some none → l[i]? = some none

/-- A strictly increasing 35-price series for the default indicator periods:
a steep climb to 27 followed by strictly positive but tiny increments, which
leaves the MACD line below its signal line at the end. -/
def decelSeries : List ℚ :=
  [1, 2, 3, 4, 5, 6, 7, 8, 9, 10, 11, 12, 13, 14, 15, 16, 17, 18, 19, 20, 21,
   22, 23, 24, 25, 26, 27, 271/10, 272/10, 273/10, 274/10, 275/10, 276/10,
   277/10, 278/10]

/-- The symbol state obtained from `decelSeries` with the default indicator
periods and constant open-interest and funding readings. -/
def decelState : SymbolState :=
  { ema := emaRun 9 21 decelSeries,
    rsi := rsiRun 14 decelSeries,
    macd := macdRun 12 26 9 decelSeries,
    atr := {},
    oi := { _oi_history := [5, 5, 5], _price_history := [5, 5, 5] },
    funding := { _funding_history := [0, 0, 0] },
    last_price := 278/10 }

/-- A symbol state whose indicators are ready and aligned for a LONG signal:
EMA bullish, RSI recovering from oversold, MACD bullish, ATR defined. -/
def demoLongState : SymbolState :=
  { ema := { _fast_ema := [some 2], _slow_ema := [some 1] },
    rsi := { _rsi_values := [some 25], _prev_rsi := some 20 },
    macd := { _macd_line := [some 2], _signal_line := [some 1], _histogram := [some 1] },
    atr := { _atr_values := [some 1] },
    last_price := 100 }

/-- A one-symbol engine around `demoLongState` with default configuration. -/
def demoEngine : StrategyEngine :=
  { config := {}, _symbols := [("BTCUSDT", demoLongState)] }

theorem length_takeLast (n : ℕ) (l : List α) : (takeLast n l).length = min n l.length := by
  simp [takeLast]
  omega

theorem nanFront_replicate (k : ℕ) : nanFront (List.replicate k (none : Option ℚ)) := by
  intro i j hij hj
  rw [List.getElem?_replicate] at hj ⊢
  split at hj
  · next h => rw [if_pos (by omega)]
  · exact absurd hj (by simp)

theorem nanFront_replicate_append_map (k : ℕ) (vs : List ℚ) :
    nanFront (List.replicate k (none : Option ℚ) ++ vs.map some) := by
  intro i j hij hj
  rw [List.getElem?_append] at hj ⊢
  simp only [List.length_replicate] at hj ⊢
  by_cases hjk : j < k
  · have hik : i < k := lt_of_le_of_lt hij hjk
    rw [if_pos hik, List.getElem?_replicate, if_pos hik]
  · exfalso
    rw [if_neg hjk, List.getElem?_map] at hj
    rcases h : vs[j - k]? with _ | v
    · rw [h] at hj; exact Option.noConfusion hj
    · rw [h] at hj
      exact Option.noConfusion (Option.some.inj hj)

theorem nanFront_replicate_append {l : List (Option ℚ)} (k : ℕ) (h : nanFront l) :
    nanFront (List.replicate k (none : Option ℚ) ++ l) := by
  intro i j hij hj
  rw [List.getElem?_append] at hj ⊢
  simp only [List.length_replicate] at hj ⊢
  by_cases hik : i < k
  · rw [if_pos hik, List.getElem?_replicate, if_pos hik]
  · have hjk : ¬ j < k := fun hc => hik (lt_of_le_of_lt hij hc)
    rw [if_neg hjk] at hj
    rw [if_neg hik]
    exact h _ _ (by omega) hj

theorem getElem?_zipWith_subOpt (l1 l2 : List (Option ℚ)) (i : ℕ) :
    (List.zipWith subOpt l1 l2)[i]? =
      match l1[i]?, l2[i]? with
      | some a, some b => some (subOpt a b)
      | _, _ => none := by
  induction l1 generalizing l2 i with
  | nil => simp
  | cons a l1 ih =>
    cases l2 with
    | nil => simp
    | cons b l2 =>
      cases i with
      | zero => simp
      | succ i => simpa using ih l2 i

theorem nanFront_zipWith {l1 l2 : List (Option ℚ)} (h1 : nanFront l1) (h2 : nanFront l2) :
    nanFront (List.zipWith subOpt l1 l2) := by
  intro i j hij hj
  rw [getElem?_zipWith_subOpt] at hj ⊢
  rcases ha : l1[j]? with _ | a <;> rw [ha] at hj
  · exact absurd hj (by simp)
  rcases hb : l2[j]? with _ | b <;> rw [hb] at hj
  · exact absurd hj (by simp)
  have hlen1 : i < l1.length := by
    have hx : j < l1.length := (List.getElem?_eq_some_iff.mp ha).1
    omega
  have hlen2 : i < l2.length := by
    have hx : j < l2.length := (List.getElem?_eq_some_iff.mp hb).1
    omega
  have hij1 : l1[i]? = some l1[i] := List.getElem?_eq_getElem hlen1
  have hij2 : l2[i]? = some l2[i] := List.getElem?_eq_getElem hlen2
  cases a with
  | none =>
    rw [h1 i j hij ha, hij2]
    simp [subOpt]
  | some a =>
    cases b with
    | none =>
      rw [h2 i j hij hb, hij1]
      simp [subOpt]
    | some b => exact absurd hj (by simp [subOpt])

theorem nanFront_drop {l : List (Option ℚ)} (n : ℕ) (h : nanFront l) :
    nanFront (l.drop n) := by
  intro i j hij hj
  rw [List.getElem?_drop] at hj ⊢
  exact h _ _ (by omega) hj

theorem nanFront_takeLast {l : List (Option ℚ)} (n : ℕ) (h : nanFront l) :
    nanFront (takeLast n l) := nanFront_drop _ h

theorem calculate_ema_nanFront (prices : List ℚ) (period : ℕ) :
    nanFront (calculate_ema prices period) := by
  unfold calculate_ema
  split
  · simpa using nanFront_replicate_append_map prices.length []
  · exact nanFront_replicate_append_map _ _

theorem calculate_rsi_nanFront (prices : List ℚ) (period : ℕ) :
    nanFront (calculate_rsi prices period) := by
  unfold calculate_rsi
  split
  · simpa using nanFront_replicate_append_map prices.length []
  · exact nanFront_replicate_append_map _ _

theorem rsiScan_length (period : ℕ) :
    ∀ (pairs : List (ℚ × ℚ)) (g l : ℚ), (rsiScan period g l pairs).length = pairs.length
  | [], _, _ => rfl
  | _ :: pairs, g, l => by simp [rsiScan, rsiScan_length period pairs]

theorem priceChanges_length (prices : List ℚ) :
    (priceChanges prices).length = prices.length - 1 := by
  simp [priceChanges]

theorem calculate_rsi_length (prices : List ℚ) (period : ℕ) :
    (calculate_rsi prices period).length = prices.length := by
  unfold calculate_rsi
  by_cases h : prices.length < period + 1
  · simp [h]
  · push_neg at h
    simp only [if_neg (not_lt.mpr h)]
    simp only [List.length_append, List.length_replicate, List.length_map,
      List.length_cons, rsiScan_length, List.length_zip, List.length_drop,
      List.length_map, priceChanges_length]
    omega

theorem calculate_macd_length (prices : List ℚ) (f s g : ℕ)
    (hf : 1 ≤ f) (hs : 1 ≤ s) (hg : 1 ≤ g) :
    ((calculate_macd prices f s g).1.length = prices.length ∧
      (calculate_macd prices f s g).2.1.length = prices.length) ∧
      (calculate_macd prices f s g).2.2.length = prices.length := by
  unfold calculate_macd
  by_cases h : prices.length < s
  · simp [h]
  · simp only [if_neg (not_lt.mpr (not_lt.mp h))]
    have hml : (List.zipWith subOpt (calculate_ema prices f) (calculate_ema prices s)).length
        = prices.length := by
      simp [List.length_zipWith, calculate_ema_length prices f hf,
        calculate_ema_length prices s hs]
    have hvalid : ((List.zipWith subOpt (calculate_ema prices f)
        (calculate_ema prices s)).filterMap id).length ≤ prices.length := by
      calc ((List.zipWith subOpt (calculate_ema prices f)
            (calculate_ema prices s)).filterMap id).length
          ≤ (List.zipWith subOpt (calculate_ema prices f)
            (calculate_ema prices s)).length := List.length_filterMap_le _ _
        _ = prices.length := hml
    have hsl : (List.replicate
          ((List.zipWith subOpt (calculate_ema prices f) (calculate_ema prices s)).length -
            ((List.zipWith subOpt (calculate_ema prices f)
              (calculate_ema prices s)).filterMap id).length) (none : Option ℚ) ++
        calculate_ema ((List.zipWith subOpt (calculate_ema prices f)
          (calculate_ema prices s)).filterMap id) g).length = prices.length := by
      simp only [List.length_append, List.length_replicate,
        calculate_ema_length _ g hg, hml]
      omega
    refine ⟨⟨hml, hsl⟩, ?_⟩
    rw [List.length_zipWith, hsl, hml, min_self]

theorem calculate_macd_nanFront (prices : List ℚ) (f s g : ℕ) :
    (nanFront (calculate_macd prices f s g).1 ∧
      nanFront (calculate_macd prices f s g).2.1) ∧
      nanFront (calculate_macd prices f s g).2.2 := by
  unfold calculate_macd
  by_cases h : prices.length < s
  · simp only [if_pos h]
    exact ⟨⟨nanFront_replicate _, nanFront_replicate _⟩, nanFront_replicate _⟩
  · simp only [if_neg h]
    have hml : nanFront (List.zipWith subOpt (calculate_ema prices f)
        (calculate_ema prices s)) :=
      nanFront_zipWith (calculate_ema_nanFront _ _) (calculate_ema_nanFront _ _)
    have hsl : nanFront (List.replicate
          ((List.zipWith subOpt (calculate_ema prices f) (calculate_ema prices s)).length -
            ((List.zipWith subOpt (calculate_ema prices f)
              (calculate_ema prices s)).filterMap id).length) (none : Option ℚ) ++
        calculate_ema ((List.zipWith subOpt (calculate_ema prices f)
          (calculate_ema prices s)).filterMap id) g) :=
      nanFront_replicate_append _ (calculate_ema_nanFront _ _)
    exact ⟨⟨hml, hsl⟩, nanFront_zipWith hml hsl⟩

theorem ema_update_invariant (e : EMAIndicator) (p : ℚ)
    (hef : 1 ≤ e.fast_period) (hes : 1 ≤ e.slow_period) :
    (e.update p)._fast_ema.length = (e.update p)._prices.length ∧
      (e.update p)._slow_ema.length = (e.update p)._prices.length ∧
      nanFront (e.update p)._fast_ema ∧ nanFront (e.update p)._slow_ema := by
  simp only [EMAIndicator.update]
  split
  · refine ⟨?_, ?_, nanFront_takeLast _ (calculate_ema_nanFront _ _),
      nanFront_takeLast _ (calculate_ema_nanFront _ _)⟩ <;>
      simp [length_takeLast, calculate_ema_length _ _ hef, calculate_ema_length _ _ hes]
  · exact ⟨calculate_ema_length _ _ hef, calculate_ema_length _ _ hes,
      calculate_ema_nanFront _ _, calculate_ema_nanFront _ _⟩

theorem rsi_update_invariant (r : RSIIndicator) (p : ℚ) :
    (r.update p)._rsi_values.length = (r.update p)._prices.length ∧
      nanFront (r.update p)._rsi_values := by
  simp only [RSIIndicator.update]
  split
  · refine ⟨?_, nanFront_takeLast _ (calculate_rsi_nanFront _ _)⟩
    simp [length_takeLast, calculate_rsi_length]
  · exact ⟨calculate_rsi_length _ _, calculate_rsi_nanFront _ _⟩

theorem macd_update_invariant (m : MACDIndicator) (p : ℚ)
    (hmf : 1 ≤ m.fast_period) (hms : 1 ≤ m.slow_period) (hmg : 1 ≤ m.signal_period) :
    (m.update p)._macd_line.length = (m.update p)._prices.length ∧
      (m.update p)._signal_line.length = (m.update p)._prices.length ∧
      (m.update p)._histogram.length = (m.update p)._prices.length ∧
      nanFront (m.update p)._macd_line ∧ nanFront (m.update p)._signal_line ∧
      nanFront (m.update p)._histogram := by
  have hlen := calculate_macd_length (m._prices ++ [p]) m.fast_period m.slow_period
    m.signal_period hmf hms hmg
  have hnan := calculate_macd_nanFront (m._prices ++ [p]) m.fast_period m.slow_period
    m.signal_period
  simp only [MACDIndicator.update]
  split
  · refine ⟨?_, ?_, ?_, nanFront_takeLast _ hnan.1.1, nanFront_takeLast _ hnan.1.2,
      nanFront_takeLast _ hnan.2⟩ <;>
      simp [length_takeLast, hlen.1.1, hlen.1.2, hlen.2]
  · exact ⟨hlen.1.1, hlen.1.2, hlen.2, hnan.1.1, hnan.1.2, hnan.2⟩

/-- C4: for EMA, RSI and MACD indicators, after each update every derived
sequence has exactly the length of the raw price sequence and its NaN
sentinel entries form an initial segment (every entry before the warm-up
period is NaN, never numeric); moreover the warm-up span of `calculate_ema`
(first `period - 1` entries) and `calculate_rsi` (first `period` entries) is
exactly the NaN sentinel. -/
theorem c4_length_and_warmup (e : EMAIndicator) (r : RSIIndicator) (m : MACDIndicator)
    (p : ℚ) (prices : List ℚ) (period : ℕ)
    (hef : 1 ≤ e.fast_period) (hes : 1 ≤ e.slow_period)
    (hmf : 1 ≤ m.fast_period) (hms : 1 ≤ m.slow_period) (hmg : 1 ≤ m.signal_period) :
    ((e.update p)._fast_ema.length = (e.update p)._prices.length ∧
      (e.update p)._slow_ema.length = (e.update p)._prices.length ∧
      nanFront (e.update p)._fast_ema ∧ nanFront (e.update p)._slow_ema) ∧
    ((r.update p)._rsi_values.length = (r.update p)._prices.length ∧
      nanFront (r.update p)._rsi_values) ∧
    ((m.update p)._macd_line.length = (m.update p)._prices.length ∧
      (m.update p)._signal_line.length = (m.update p)._prices.length ∧
      (m.update p)._histogram.length = (m.update p)._prices.length ∧
      nanFront (m.update p)._macd_line ∧ nanFront (m.update p)._signal_line ∧
      nanFront (m.update p)._histogram) ∧
    ((period ≤ prices.length →
      (calculate_ema prices period).take (period - 1) =
        List.replicate (period - 1) none) ∧
     (period + 1 ≤ prices.length →
      (calculate_rsi prices period).take period = List.replicate period none)) := by
  refine ⟨ema_update_invariant e p hef hes, rsi_update_invariant r p,
    macd_update_invariant m p hmf hms hmg, ?_, ?_⟩
  · intro hle
    simp only [calculate_ema, if_neg (not_lt.mpr hle)]
    exact List.take_left' (by simp)
  · intro hle
    simp only [calculate_rsi, if_neg (not_lt.mpr hle)]
    exact List.take_left' (by simp)

/-- Witness for C4 at the default indicator configurations, price 5, and a
concrete 3-price series with period 2. -/
theorem c4_length_and_warmup_witness :
    (1 ≤ ({} : EMAIndicator).fast_period) ∧ (1 ≤ ({} : EMAIndicator).slow_period) ∧
    (1 ≤ ({} : MACDIndicator).fast_period) ∧ (1 ≤ ({} : MACDIndicator).slow_period) ∧
    (1 ≤ ({} : MACDIndicator).signal_period) ∧
    (((({} : EMAIndicator).update 5)._fast_ema.length =
        (({} : EMAIndicator).update 5)._prices.length ∧
      (({} : EMAIndicator).update 5)._slow_ema.length =
        (({} : EMAIndicator).update 5)._prices.length ∧
      nanFront (({} : EMAIndicator).update 5)._fast_ema ∧
      nanFront (({} : EMAIndicator).update 5)._slow_ema) ∧
    ((({} : RSIIndicator).update 5)._rsi_values.length =
        (({} : RSIIndicator).update 5)._prices.length ∧
      nanFront (({} : RSIIndicator).update 5)._rsi_values) ∧
    ((({} : MACDIndicator).update 5)._macd_line.length =
        (({} : MACDIndicator).update 5)._prices.length ∧
      (({} : MACDIndicator).update 5)._signal_line.length =
        (({} : MACDIndicator).update 5)._prices.length ∧
      (({} : MACDIndicator).update 5)._histogram.length =
        (({} : MACDIndicator).update 5)._prices.length ∧
      nanFront (({} : MACDIndicator).update 5)._macd_line ∧
      nanFront (({} : MACDIndicator).update 5)._signal_line ∧
      nanFront (({} : MACDIndicator).update 5)._histogram) ∧
    ((2 ≤ ([1, 2, 3] : List ℚ).length →
      (calculate_ema [1, 2, 3] 2).take (2 - 1) = List.replicate (2 - 1) none) ∧
     (2 + 1 ≤ ([1, 2, 3] : List ℚ).length →
      (calculate_rsi [1, 2, 3] 2).take 2 = List.replicate 2 none))) :=
  ⟨by decide, by decide, by decide, by decide, by decide,
    c4_length_and_warmup {} {} {} 5 [1, 2, 3] 2 (by decide) (by decide) (by decide)
      (by decide) (by decide)⟩

theorem rsiPoint_bounds (g l : ℚ) (hg : 0 ≤ g) (hl : 0 ≤ l) :
    0 ≤ rsiPoint g l ∧ rsiPoint g l ≤ 100 := by
  unfold rsiPoint
  split
  · norm_num
  · next hne =>
    have hlpos : 0 < l := lt_of_le_of_ne hl (Ne.symm hne)
    have hrs : 0 ≤ g / l := div_nonneg hg hl
    have h1 : (0 : ℚ) < 1 + g / l := by linarith
    constructor
    · have hle : 100 / (1 + g / l) ≤ 100 := by
        rw [div_le_iff₀ h1]
        nlinarith
      linarith
    · have hpos : 0 < 100 / (1 + g / l) := by positivity
      linarith

theorem wilderStep_nonneg (period : ℕ) (x inc : ℚ) (hx : 0 ≤ x) (hinc : 0 ≤ inc) :
    0 ≤ (x * ((period : ℚ) - 1) + inc) / period := by
  rcases Nat.eq_zero_or_pos period with h | h
  · subst h
    simp
  · have h1 : (1 : ℚ) ≤ (period : ℚ) := by exact_mod_cast h
    apply div_nonneg _ (by positivity)
    have hmul : 0 ≤ x * ((period : ℚ) - 1) := mul_nonneg hx (by linarith)
    linarith

theorem rsiScan_mem_bounds (period : ℕ) :
    ∀ (pairs : List (ℚ × ℚ)) (g l : ℚ), 0 ≤ g → 0 ≤ l →
      (∀ pr ∈ pairs, 0 ≤ pr.1 ∧ 0 ≤ pr.2) →
      ∀ v ∈ rsiScan period g l pairs, 0 ≤ v ∧ v ≤ 100 := by
  intro pairs
  induction pairs with
  | nil => intro g l _ _ _ v hv; exact absurd hv (by simp [rsiScan])
  | cons gl rest ih =>
    intro g l hg hl hpairs v hv
    have hfst : 0 ≤ gl.1 := (hpairs gl (by simp)).1
    have hsnd : 0 ≤ gl.2 := (hpairs gl (by simp)).2
    have hg' : 0 ≤ (g * ((period : ℚ) - 1) + gl.1) / period :=
      wilderStep_nonneg period g gl.1 hg hfst
    have hl' : 0 ≤ (l * ((period : ℚ) - 1) + gl.2) / period :=
      wilderStep_nonneg period l gl.2 hl hsnd
    simp only [rsiScan, List.mem_cons] at hv
    rcases hv with rfl | hv
    · exact rsiPoint_bounds _ _ hg' hl'
    · exact ih _ _ hg' hl' (fun pr hpr => hpairs pr (by simp [hpr])) v hv

theorem mean_nonneg (l : List ℚ) (h : ∀ y ∈ l, 0 ≤ y) : 0 ≤ mean l :=
  div_nonneg (List.sum_nonneg h) (by positivity)

/-- C7: every defined value that `calculate_rsi` produces lies in [0, 100],
and a zero smoothed average loss forces the RSI output to exactly 100 (the
division by `1 + rs` is never taken in that case). -/
theorem c7_rsi_range (prices : List ℚ) (period : ℕ) :
    (∀ x ∈ calculate_rsi prices period, ∀ q : ℚ, x = some q → 0 ≤ q ∧ q ≤ 100) ∧
    ∀ g : ℚ, rsiPoint g 0 = 100 := by
  constructor
  · intro x hx q hq
    subst hq
    unfold calculate_rsi at hx
    split at hx
    · exact absurd (List.eq_of_mem_replicate hx) (by simp)
    · rw [List.mem_append] at hx
      rcases hx with hx | hx
      · exact absurd (List.eq_of_mem_replicate hx) (by simp)
      · obtain ⟨v, hv, hvq⟩ := List.mem_map.mp hx
        obtain rfl : v = q := Option.some.inj hvq
        have hgain : ∀ y ∈ (priceChanges prices).map (fun c => max 0 c), 0 ≤ y := by
          intro y hy
          obtain ⟨c, -, rfl⟩ := List.mem_map.mp hy
          exact le_max_left 0 c
        have hloss : ∀ y ∈ (priceChanges prices).map (fun c => |min 0 c|), 0 ≤ y := by
          intro y hy
          obtain ⟨c, -, rfl⟩ := List.mem_map.mp hy
          exact abs_nonneg _
        have hg0 : 0 ≤ mean (((priceChanges prices).map (fun c => max 0 c)).take period) :=
          mean_nonneg _ (fun y hy => hgain y (List.mem_of_mem_take hy))
        have hl0 : 0 ≤ mean (((priceChanges prices).map (fun c => |min 0 c|)).take period) :=
          mean_nonneg _ (fun y hy => hloss y (List.mem_of_mem_take hy))
        rw [List.mem_cons] at hv
        rcases hv with rfl | hv
        · exact rsiPoint_bounds _ _ hg0 hl0
        · refine rsiScan_mem_bounds period _ _ _ hg0 hl0 ?_ v hv
          intro pr hpr
          have hmem := List.of_mem_zip hpr
          exact ⟨hgain pr.1 (List.mem_of_mem_drop hmem.1),
            hloss pr.2 (List.mem_of_mem_drop hmem.2)⟩
  · intro g
    simp [rsiPoint]

/-- Witness for C7: the defined value 100 produced by RSI(2) on [1, 2, 3]
lies in [0, 100], and a zero average loss yields exactly 100. -/
theorem c7_rsi_range_witness :
    (some (100 : ℚ) ∈ calculate_rsi [1, 2, 3] 2 ∧ 0 ≤ (100 : ℚ) ∧ (100 : ℚ) ≤ 100) ∧
      rsiPoint 5 0 = 100 :=
  ⟨⟨by with_unfolding_all decide,
    (c7_rsi_range [1, 2, 3] 2).1 (some 100) (by with_unfolding_all decide) 100 rfl⟩,
    (c7_rsi_range [1, 2, 3] 2).2 5⟩

/-- C8: with a defined positive ATR value and a positive multiplier, the LONG
stop-loss is strictly below the entry price and the SHORT stop-loss strictly
above; an undefined ATR makes both derived-price methods return None. -/
theorem c8_atr_stoploss (s : ATRIndicator) (entry mult rr a : ℚ) (side : String) :
    (s.value = some a → 0 < a → 0 < mult →
      (s.calculate_stoploss entry "LONG" mult = some (entry - a * mult) ∧
        entry - a * mult < entry) ∧
      (s.calculate_stoploss entry "SHORT" mult = some (entry + a * mult) ∧
        entry < entry + a * mult)) ∧
    (s.value = none →
      s.calculate_stoploss entry side mult = none ∧
      s.calculate_takeprofit entry side rr mult = none) := by
  constructor
  · intro hv ha hm
    have hd : s.get_stoploss_distance mult = some (a * mult) := by
      simp [ATRIndicator.get_stoploss_distance, hv]
    have hprod : 0 < a * mult := mul_pos ha hm
    have hlong : "LONG".toUpper = "LONG" := by with_unfolding_all decide
    have hshort : ¬ "SHORT".toUpper = "LONG" := by with_unfolding_all decide
    constructor
    · constructor
      · simp [ATRIndicator.calculate_stoploss, hd, hlong]
      · linarith
    · constructor
      · simp [ATRIndicator.calculate_stoploss, hd, hshort]
      · linarith
  · intro hv
    have hd : s.get_stoploss_distance mult = none := by
      simp [ATRIndicator.get_stoploss_distance, hv]
    exact ⟨by simp [ATRIndicator.calculate_stoploss, hd],
      by simp [ATRIndicator.calculate_takeprofit, hd]⟩

/-- Witness for C8: ATR value 2, entry 100, multiplier 3/2 for the defined
case; a fresh (empty) ATR indicator for the undefined case. -/
theorem c8_atr_stoploss_witness :
    ((({ _atr_values := [some 2] } : ATRIndicator).calculate_stoploss 100 "LONG" (3 / 2) =
        some (100 - 2 * (3 / 2)) ∧ (100 : ℚ) - 2 * (3 / 2) < 100) ∧
      (({ _atr_values := [some 2] } : ATRIndicator).calculate_stoploss 100 "SHORT" (3 / 2) =
        some (100 + 2 * (3 / 2)) ∧ (100 : ℚ) < 100 + 2 * (3 / 2))) ∧
    (({} : ATRIndicator).calculate_stoploss 100 "LONG" (3 / 2) = none ∧
      ({} : ATRIndicator).calculate_takeprofit 100 "LONG" 2 (3 / 2) = none) :=
  ⟨(c8_atr_stoploss { _atr_values := [some 2] } 100 (3 / 2) 2 2 "LONG").1
      (by with_unfolding_all decide) (by with_unfolding_all decide)
      (by with_unfolding_all decide),
    (c8_atr_stoploss {} 100 (3 / 2) 2 2 "LONG").2 rfl⟩

theorem calculate_long_score_bounds (st : IndicatorStatus) :
    0 ≤ (StrategyEngine.calculate_long_score st).1 ∧
      (StrategyEngine.calculate_long_score st).1 ≤ 100 := by
  unfold StrategyEngine.calculate_long_score
  repeat' split
  all_goals exact ⟨le_max_left _ _, max_le (by norm_num) (min_le_left _ _)⟩

theorem calculate_short_score_bounds (st : IndicatorStatus) :
    0 ≤ (StrategyEngine.calculate_short_score st).1 ∧
      (StrategyEngine.calculate_short_score st).1 ≤ 100 := by
  unfold StrategyEngine.calculate_short_score
  repeat' split
  all_goals exact ⟨le_max_left _ _, max_le (by norm_num) (min_le_left _ _)⟩

/-- C2: both confluence scores are always integers in [0, 100], and a status
with all five positive LONG contributions active (EMA bullish, RSI
recovering, MACD bullish, OI rising with bullish confirmation, short-squeeze
funding risk) yields LONG score exactly 100 with 5 aligned indicators. -/
theorem c2_score_range_and_full_alignment (st : IndicatorStatus) :
    (0 ≤ (StrategyEngine.calculate_long_score st).1 ∧
      (StrategyEngine.calculate_long_score st).1 ≤ 100 ∧
      0 ≤ (StrategyEngine.calculate_short_score st).1 ∧
      (StrategyEngine.calculate_short_score st).1 ≤ 100) ∧
    (st.ema_bullish = true → st.rsi_recovering = true → st.macd_bullish = true →
      st.oi_rising = true → st.oi_confirmation = "BULLISH" →
      st.funding_squeeze_risk = "SHORT_SQUEEZE" →
      StrategyEngine.calculate_long_score st = (100, 5)) := by
  refine ⟨⟨(calculate_long_score_bounds st).1, (calculate_long_score_bounds st).2,
    (calculate_short_score_bounds st).1, (calculate_short_score_bounds st).2⟩, ?_⟩
  intro h1 h2 h3 h4 h5 h6
  unfold StrategyEngine.calculate_long_score
  simp [h1, h2, h3, h4, h5, h6, StrategyEngine.WEIGHT_EMA, StrategyEngine.WEIGHT_RSI,
    StrategyEngine.WEIGHT_MACD, StrategyEngine.WEIGHT_OI, StrategyEngine.WEIGHT_FUNDING]

/-- Witness for C2 at the all-bullish status of the repository's own test
(test_confluence_scoring). -/
theorem c2_score_range_and_full_alignment_witness :
    StrategyEngine.calculate_long_score
      { ema_bullish := true, rsi_recovering := true, macd_bullish := true,
        oi_rising := true, oi_confirmation := "BULLISH",
        funding_squeeze_risk := "SHORT_SQUEEZE" } = (100, 5) :=
  (c2_score_range_and_full_alignment
    { ema_bullish := true, rsi_recovering := true, macd_bullish := true,
      oi_rising := true, oi_confirmation := "BULLISH",
      funding_squeeze_risk := "SHORT_SQUEEZE" }).2 rfl rfl rfl rfl rfl rfl

/-- C9: the all-neutral status (no bullish or bearish evidence at all) earns
the SHORT side the full EMA and MACD credit: SHORT score 40 with 2 aligned,
while the LONG score is 0 with 0 aligned. -/
theorem c9_short_score_from_absence :
    StrategyEngine.calculate_short_score {} = (40, 2) ∧
      StrategyEngine.calculate_long_score {} = (0, 0) := by
  with_unfolding_all decide

theorem evaluate_score_bounds (e : StrategyEngine) (symbol : String) (now : ℚ) :
    0 ≤ (e.evaluate symbol now).1.confluence_score ∧
      (e.evaluate symbol now).1.confluence_score ≤ 100 := by
  unfold StrategyEngine.evaluate
  cases h : e.lookup symbol with
  | none => simp [StrategyEngine.neutral_signal]
  | some st =>
    simp only
    split
    · simp [StrategyEngine.neutral_signal]
    · split
      · simp [StrategyEngine.neutral_signal]
      · split
        · simpa [StrategyEngine.create_signal] using
            calculate_long_score_bounds (StrategyEngine.evaluate_indicators st)
        · split
          · simpa [StrategyEngine.create_signal] using
              calculate_short_score_bounds (StrategyEngine.evaluate_indicators st)
          · simp [StrategyEngine.neutral_signal]

/-- C10: evaluating a symbol with no state in the registry returns a NEUTRAL
signal with confluence score 0 and 0 aligned indicators, without raising, and
leaves the symbol registry untouched. -/
theorem c10_unknown_symbol_neutral (e : StrategyEngine) (symbol : String) (now : ℚ)
    (h : e.lookup symbol = none) :
    e.evaluate symbol now = (StrategyEngine.neutral_signal symbol, e) ∧
      (e.evaluate symbol now).1.signal_type = SignalType.NEUTRAL ∧
      (e.evaluate symbol now).1.confluence_score = 0 ∧
      (e.evaluate symbol now).1.indicators_aligned = 0 ∧
      (e.evaluate symbol now).2 = e := by
  have heval : e.evaluate symbol now = (StrategyEngine.neutral_signal symbol, e) := by
    unfold StrategyEngine.evaluate
    rw [h]
  exact ⟨heval, by rw [heval]; rfl, by rw [heval]; rfl, by rw [heval]; rfl,
    by rw [heval]⟩

/-- Witness for C10: the engine with an empty registry and an arbitrary
symbol. -/
theorem c10_unknown_symbol_neutral_witness :
    ({ config := {}, _symbols := [] } : StrategyEngine).evaluate "BTCUSDT" 7 =
      (StrategyEngine.neutral_signal "BTCUSDT",
        ({ config := {}, _symbols := [] } : StrategyEngine)) :=
  (c10_unknown_symbol_neutral { config := {}, _symbols := [] } "BTCUSDT" 7 rfl).1

/-- Counterexample for C1: updating a fresh EMA indicator with the
non-positive price -1 advances its state (the raw sequence grows to [-1]),
so a non-positive price is not rejected as a no-op tick. -/
theorem c1_counterexample :
    (({} : EMAIndicator).update (-1))._prices = [-1] ∧
      ({} : EMAIndicator).update (-1) ≠ ({} : EMAIndicator) := by
  with_unfolding_all decide

/-- C1 (amended): the indicators perform no input validation — `update`
advances the state for every price, non-positive included, and
`calculate_true_range` raises (an error) on mismatched-length OHLC arrays
instead of treating them as a no-op; nevertheless `evaluate` itself never
raises and always returns a well-formed Signal whose confluence score lies
in [0, 100]. -/
theorem c1_no_validation_but_evaluate_total (s : EMAIndicator) (price : ℚ)
    (highs lows closes : List ℚ) (e : StrategyEngine) (symbol : String) (now : ℚ)
    (hmis : highs.length ≠ lows.length ∨ lows.length ≠ closes.length) :
    (s.update price)._prices.length = min (s._prices.length + 1) 500 ∧
      calculate_true_range highs lows closes =
        .error "All price lists must have same length" ∧
      (0 ≤ (e.evaluate symbol now).1.confluence_score ∧
        (e.evaluate symbol now).1.confluence_score ≤ 100) := by
  refine ⟨?_, ?_, evaluate_score_bounds e symbol now⟩
  · simp only [EMAIndicator.update]
    split
    · next hgt =>
      simp only [length_takeLast, List.length_append, List.length_cons,
        List.length_nil] at *
      omega
    · next hle =>
      simp only [List.length_append, List.length_cons, List.length_nil] at *
      omega
  · unfold calculate_true_range
    rw [if_pos hmis]

/-- Witness for C1 (amended): price -1 on a fresh indicator, a concrete
mismatched OHLC triple, and the empty engine. -/
theorem c1_no_validation_but_evaluate_total_witness :
    (([1] : List ℚ).length ≠ ([] : List ℚ).length ∨ ([] : List ℚ).length ≠ ([] : List ℚ).length) ∧
    ((({} : EMAIndicator).update (-1))._prices.length = min (({} : EMAIndicator)._prices.length + 1) 500 ∧
      calculate_true_range [1] [] [] = .error "All price lists must have same length" ∧
      (0 ≤ ((({ config := {}, _symbols := [] } : StrategyEngine).evaluate "X" 0).1.confluence_score) ∧
        (({ config := {}, _symbols := [] } : StrategyEngine).evaluate "X" 0).1.confluence_score ≤ 100)) :=
  ⟨Or.inl (by decide),
    c1_no_validation_but_evaluate_total {} (-1) [1] [] []
      { config := {}, _symbols := [] } "X" 0 (Or.inl (by decide))⟩

theorem find?_set (symbol : String) (st' : SymbolState) :
    ∀ l : List (String × SymbolState),
      (l.find? (fun p => p.1 = symbol)).isSome = true →
      (l.map (fun p => if p.1 = symbol then (p.1, st') else p)).find?
        (fun p => p.1 = symbol) = some (symbol, st') := by
  intro l
  induction l with
  | nil => intro h; exact absurd h (by simp)
  | cons a rest ih =>
    intro h
    by_cases ha : a.1 = symbol
    · simp only [List.map_cons, if_pos ha]
      rw [List.find?_cons_of_pos _ (by simp [ha])]
      rw [ha]
    · simp only [List.map_cons, if_neg ha]
      rw [List.find?_cons_of_neg _ (by simp [ha])]
      rw [List.find?_cons_of_neg _ (by simp [ha])] at h
      exact ih h

theorem lookup_setState (e : StrategyEngine) (symbol : String) (st st' : SymbolState)
    (h : e.lookup symbol = some st) :
    (e.setState symbol st').lookup symbol = some st' := by
  unfold StrategyEngine.lookup at h ⊢
  unfold StrategyEngine.setState
  have hsome : (e._symbols.find? (fun p => p.1 = symbol)).isSome = true := by
    rcases hf : e._symbols.find? (fun p => p.1 = symbol) with _ | v
    · rw [hf] at h; exact absurd h (by simp)
    · rw [hf]; rfl
  simp only
  rw [find?_set symbol st' e._symbols hsome]
  rfl

/-- Every evaluation either returns a NEUTRAL signal or stamps the symbol's
state with the evaluation time (`last_signal_time := time.time()`). -/
theorem evaluate_neutral_or_sets_time (e : StrategyEngine) (symbol : String) (t0 : ℚ) :
    (e.evaluate symbol t0).1.signal_type = SignalType.NEUTRAL ∨
      ∃ st', (e.evaluate symbol t0).2.lookup symbol = some st' ∧
        st'.last_signal_time = t0 ∧ (e.evaluate symbol t0).2.config = e.config := by
  unfold StrategyEngine.evaluate
  cases h : e.lookup symbol with
  | none => left; rfl
  | some st =>
    simp only
    split
    · left; rfl
    · split
      · left; rfl
      · split
        · right
          exact ⟨_, lookup_setState e symbol st _ h, rfl, rfl⟩
        · split
          · right
            exact ⟨_, lookup_setState e symbol st _ h, rfl, rfl⟩
          · left; rfl

/-- An engine whose symbol state has a nonzero last-signal time within the
cooldown window answers NEUTRAL with the cooldown reason, whatever the
indicator state holds. -/
theorem cooldown_neutral (e : StrategyEngine) (symbol : String) (now : ℚ)
    (st : SymbolState) (hlk : e.lookup symbol = some st)
    (hne : st.last_signal_time ≠ 0)
    (hcool : now - st.last_signal_time < e.config.trade_cooldown) :
    e.evaluate symbol now = (StrategyEngine.neutral_signal symbol "Cooldown active", e) := by
  have hcd : StrategyEngine.check_cooldown e.config st now = false := by
    unfold StrategyEngine.check_cooldown
    rw [if_neg hne]
    exact decide_eq_false (not_le.mpr hcool)
  unfold StrategyEngine.evaluate
  rw [hlk]
  simp [hcd]

/-- C3: after `evaluate` emits a non-NEUTRAL signal at (positive wall clock)
time t0, any evaluation of the same symbol at a time `now` with
`now - t0 < trade_cooldown` returns the NEUTRAL cooldown signal, regardless
of the indicator state. -/
theorem c3_cooldown_blocks (e : StrategyEngine) (symbol : String) (t0 now : ℚ)
    (ht0 : 0 < t0)
    (hsig : (e.evaluate symbol t0).1.signal_type ≠ SignalType.NEUTRAL)
    (hcool : now - t0 < e.config.trade_cooldown) :
    ((e.evaluate symbol t0).2.evaluate symbol now).1 =
      StrategyEngine.neutral_signal symbol "Cooldown active" := by
  rcases evaluate_neutral_or_sets_time e symbol t0 with hneu | ⟨st', hlk, htime, hcfg⟩
  · exact absurd hneu hsig
  · have h := cooldown_neutral (e.evaluate symbol t0).2 symbol now st' hlk
      (by rw [htime]; exact ne_of_gt ht0)
      (by rw [htime, hcfg]; exact hcool)
    rw [h]

/-- Witness for C3: the demo engine emits a LONG signal at time 1000, and
evaluating again at time 1100 (within the 300-second default cooldown)
returns the NEUTRAL cooldown signal. -/
theorem c3_cooldown_blocks_witness :
    (0 : ℚ) < 1000 ∧
      (demoEngine.evaluate "BTCUSDT" 1000).1.signal_type ≠ SignalType.NEUTRAL ∧
      (1100 : ℚ) - 1000 < demoEngine.config.trade_cooldown ∧
      ((demoEngine.evaluate "BTCUSDT" 1000).2.evaluate "BTCUSDT" 1100).1 =
        StrategyEngine.neutral_signal "BTCUSDT" "Cooldown active" :=
  ⟨by norm_num, by with_unfolding_all decide, by with_unfolding_all decide,
    c3_cooldown_blocks demoEngine "BTCUSDT" 1000 1100 (by norm_num)
      (by with_unfolding_all decide) (by with_unfolding_all decide)⟩

theorem calculate_ema_ne_nil (prices : List ℚ) (period : ℕ) (h : prices ≠ []) :
    calculate_ema prices period ≠ [] := by
  unfold calculate_ema
  split
  · simpa using h
  · simp

theorem takeLast_ne_nil {l : List α} (n : ℕ) (hn : 1 ≤ n) (h : l ≠ []) :
    takeLast n l ≠ [] := by
  have hlen : (takeLast n l).length = min n l.length := length_takeLast n l
  intro hc
  rw [hc] at hlen
  simp only [List.length_nil] at hlen
  have : 0 < l.length := List.length_pos.mpr h
  omega

theorem ema_update_fast_ne_nil (s : EMAIndicator) (p : ℚ) :
    (s.update p)._fast_ema ≠ [] ∧ (s.update p)._slow_ema ≠ [] := by
  have hne : s._prices ++ [p] ≠ [] := by simp
  simp only [EMAIndicator.update]
  split
  · exact ⟨takeLast_ne_nil 500 (by norm_num) (calculate_ema_ne_nil _ _ hne),
      takeLast_ne_nil 500 (by norm_num) (calculate_ema_ne_nil _ _ hne)⟩
  · exact ⟨calculate_ema_ne_nil _ _ hne, calculate_ema_ne_nil _ _ hne⟩

theorem update_prev_eq_value (s : EMAIndicator) (p : ℚ)
    (hf : s._fast_ema = [] → s._prev_fast = none)
    (hs : s._slow_ema = [] → s._prev_slow = none) :
    (s.update p)._prev_fast = s.fast_value ∧ (s.update p)._prev_slow = s.slow_value := by
  have hgen : ∀ (l : List (Option ℚ)) (old : Option ℚ), (l = [] → old = none) →
      (l.getLast?).getD old = lastDefined l := by
    intro l old hold
    rcases hl : l.getLast? with _ | e
    · rw [List.getLast?_eq_none_iff] at hl
      simp [lastDefined, hold hl, hl]
    · simp [lastDefined, hl]
  simp only [EMAIndicator.update]
  split <;>
    exact ⟨hgen s._fast_ema s._prev_fast hf, hgen s._slow_ema s._prev_slow hs⟩

theorem emaRun_snoc (fp sp : ℕ) (ps : List ℚ) (p : ℚ) :
    emaRun fp sp (ps ++ [p]) = (emaRun fp sp ps).update p := by
  simp [emaRun, List.foldl_append]

theorem emaRun_prev (fp sp : ℕ) (ps : List ℚ) (p : ℚ) :
    ((emaRun fp sp ps).update p)._prev_fast = (emaRun fp sp ps).fast_value ∧
      ((emaRun fp sp ps).update p)._prev_slow = (emaRun fp sp ps).slow_value := by
  rcases List.eq_nil_or_concat ps with rfl | ⟨qs, q, rfl⟩
  · exact update_prev_eq_value _ p (fun _ => rfl) (fun _ => rfl)
  · rw [List.concat_eq_append, emaRun_snoc]
    refine update_prev_eq_value _ p ?_ ?_
    · intro hc
      exact absurd hc (ema_update_fast_ne_nil (emaRun fp sp qs) q).1
    · intro hc
      exact absurd hc (ema_update_fast_ne_nil (emaRun fp sp qs) q).2

/-- C6: for any update sequence, the EMA crossover predicates are
edge-triggered: `is_bullish_crossover` after an update holds exactly when
both the previous and the new fast/slow values are defined, the previous
ordering was fast ≤ slow, and the new ordering is fast > slow (symmetric for
the bearish one); a crossover never fires while the previous state was
already bullish (resp. bearish); a fired bullish crossover means the state
just flipped; and any undefined current or previous value makes both
predicates false. -/
theorem c6_crossover_edge_trigger (fp sp : ℕ) (ps : List ℚ) (p : ℚ) :
    ((((emaRun fp sp ps).update p).is_bullish_crossover = true ↔
      (∃ pf psl f sl : ℚ, (emaRun fp sp ps).fast_value = some pf ∧
        (emaRun fp sp ps).slow_value = some psl ∧
        ((emaRun fp sp ps).update p).fast_value = some f ∧
        ((emaRun fp sp ps).update p).slow_value = some sl ∧ pf ≤ psl ∧ sl < f)) ∧
     (((emaRun fp sp ps).update p).is_bearish_crossover = true ↔
      (∃ pf psl f sl : ℚ, (emaRun fp sp ps).fast_value = some pf ∧
        (emaRun fp sp ps).slow_value = some psl ∧
        ((emaRun fp sp ps).update p).fast_value = some f ∧
        ((emaRun fp sp ps).update p).slow_value = some sl ∧ psl ≤ pf ∧ f < sl))) ∧
    (((emaRun fp sp ps).is_bullish = true →
        ((emaRun fp sp ps).update p).is_bullish_crossover = false) ∧
     ((emaRun fp sp ps).is_bearish = true →
        ((emaRun fp sp ps).update p).is_bearish_crossover = false)) ∧
    (((emaRun fp sp ps).update p).is_bullish_crossover = true →
      ((emaRun fp sp ps).update p).is_bullish = true ∧
        (emaRun fp sp ps).is_bullish = false) ∧
    (((emaRun fp sp ps).fast_value = none ∨ (emaRun fp sp ps).slow_value = none ∨
        ((emaRun fp sp ps).update p).fast_value = none ∨
        ((emaRun fp sp ps).update p).slow_value = none) →
      ((emaRun fp sp ps).update p).is_bullish_crossover = false ∧
        ((emaRun fp sp ps).update p).is_bearish_crossover = false) := by
  obtain ⟨hpf, hps⟩ := emaRun_prev fp sp ps p
  rcases hf0 : (emaRun fp sp ps).fast_value with _ | pf <;>
    rcases hs0 : (emaRun fp sp ps).slow_value with _ | psl <;>
    rcases hf1 : ((emaRun fp sp ps).update p).fast_value with _ | f <;>
    rcases hs1 : ((emaRun fp sp ps).update p).slow_value with _ | sl <;>
    rw [hf0] at hpf <;> rw [hs0] at hps <;>
    simp_all [EMAIndicator.is_bullish_crossover, EMAIndicator.is_bearish_crossover,
      EMAIndicator.is_bullish, EMAIndicator.is_bearish]

/-- Witness for C6: with fast period 1 and slow period 2, prices [3, 1] leave
fast = 1 below slow = 2, and the update with price 10 flips the ordering
(fast 10, slow 22/3), so the bullish crossover fires on exactly that tick. -/
theorem c6_crossover_edge_trigger_witness :
    ((emaRun 1 2 [3, 1]).update 10).is_bullish_crossover = true :=
  (c6_crossover_edge_trigger 1 2 [3, 1] 10).1.1.mpr
    ⟨1, 2, 10, 22 / 3, by with_unfolding_all decide⟩

theorem sum_lt_length_mul (x : ℚ) :
    ∀ l : List ℚ, l ≠ [] → (∀ y ∈ l, y < x) → l.sum < (l.length : ℚ) * x
  | [], h, _ => absurd rfl h
  | [a], _, h => by simpa using h a (by simp)
  | a :: b :: t, _, h => by
    have h1 := sum_lt_length_mul x (b :: t) (by simp) (fun y hy => h y (by simp [hy]))
    have h2 := h a (by simp)
    simp only [List.sum_cons, List.length_cons] at h1 ⊢
    push_cast at h1 ⊢
    linarith

theorem mean_lt (l : List ℚ) (x : ℚ) (hne : l ≠ []) (h : ∀ y ∈ l, y < x) :
    mean l < x := by
  have hlen : (0 : ℚ) < l.length := by exact_mod_cast List.length_pos.mpr hne
  unfold mean
  rw [div_lt_iff₀ hlen]
  have := sum_lt_length_mul x l hne h
  linarith [this]

theorem mean_le (l : List ℚ) (x : ℚ) (hne : l ≠ []) (h : ∀ y ∈ l, y ≤ x) :
    mean l ≤ x := by
  have hlen : (0 : ℚ) < l.length := by exact_mod_cast List.length_pos.mpr hne
  have hs : l.sum ≤ (l.length : ℚ) * x := by
    calc l.sum ≤ l.length • x := List.sum_le_card_nsmul l x h
      _ = (l.length : ℚ) * x := by rw [nsmul_eq_mul]
  unfold mean
  rw [div_le_iff₀ hlen]
  linarith

theorem emaStep_le (m prev x : ℚ) (hm1 : m ≤ 1) (h : prev ≤ x) :
    emaStep m prev x ≤ x := by
  unfold emaStep
  nlinarith [mul_nonneg (sub_nonneg.mpr h) (sub_nonneg.mpr hm1)]

theorem emaFold_append (m i : ℚ) (l1 l2 : List ℚ) :
    emaFold m i (l1 ++ l2) = emaFold m (emaFold m i l1) l2 := by
  simp [emaFold, List.foldl_append]

theorem mean_step_lt (l : List ℚ) (x F m : ℚ) (hne : l ≠ [])
    (hmean : mean l ≤ F) (hm1 : m ≤ 1) (hm : 1 / ((l.length : ℚ) + 1) < m)
    (hx : ∀ y ∈ l, y < x) :
    mean (l ++ [x]) < emaStep m F x := by
  have hlen : (0 : ℚ) < l.length := by exact_mod_cast List.length_pos.mpr hne
  have hxm : mean l < x := mean_lt l x hne hx
  have hmean' : l.sum ≤ F * l.length := by
    unfold mean at hmean
    rw [div_le_iff₀ hlen] at hmean
    exact hmean
  have hxm' : l.sum < x * (l.length : ℚ) := by
    unfold mean at hxm
    rw [div_lt_iff₀ hlen] at hxm
    exact hxm
  have h1 : 1 < m * ((l.length : ℚ) + 1) := by
    rw [div_lt_iff₀ (by positivity)] at hm
    linarith
  have key : 0 < (x * (l.length : ℚ) - l.sum) * (m * ((l.length : ℚ) + 1) - 1) :=
    mul_pos (by linarith) (by linarith)
  have hF2 : ((l.length : ℚ) + 1) * (l.sum * (1 - m)) ≤
      ((l.length : ℚ) + 1) * (F * (l.length : ℚ) * (1 - m)) := by
    apply mul_le_mul_of_nonneg_left _ (by positivity)
    exact mul_le_mul_of_nonneg_right hmean' (by linarith)
  unfold mean emaStep
  simp only [List.sum_append, List.length_append, List.sum_cons, List.sum_nil,
    List.length_cons, List.length_nil]
  push_cast
  rw [div_lt_iff₀ (by positivity)]
  nlinarith [key, hF2, hlen]

theorem emaFold_gt_mean (m : ℚ) (hm1 : m ≤ 1) :
    ∀ (post done : List ℚ) (F : ℚ), post ≠ [] → done ≠ [] →
      (1 : ℚ) / ((done.length : ℚ) + 1) < m →
      mean done ≤ F →
      (done ++ post).Pairwise (· < ·) →
      mean (done ++ post) < emaFold m F post := by
  intro post
  induction post with
  | nil => intro done F h; exact absurd rfl h
  | cons x rest ih =>
    intro done F _ hdne hm0 hmean hsort
    have hx : ∀ y ∈ done, y < x := by
      have hrel := (List.pairwise_append.mp hsort).2.2
      intro y hy
      exact hrel y hy x (by simp)
    have hstep : mean (done ++ [x]) < emaStep m F x :=
      mean_step_lt done x F m hdne hmean hm1 hm0 hx
    cases rest with
    | nil => simpa [emaFold] using hstep
    | cons y t =>
      have hm0' : (1 : ℚ) / (((done ++ [x]).length : ℚ) + 1) < m := by
        have hmono : (1 : ℚ) / (((done ++ [x]).length : ℚ) + 1) ≤
            1 / ((done.length : ℚ) + 1) := by
          apply one_div_le_one_div_of_le (by positivity)
          simp
        linarith
      have hres := ih (done ++ [x]) (emaStep m F x) (by simp) (by simp) hm0'
        (le_of_lt hstep) (by simpa [List.append_assoc] using hsort)
      have hgoal : (done ++ [x]) ++ (y :: t) = done ++ (x :: y :: t) := by
        simp [List.append_assoc]
      rw [hgoal] at hres
      simpa [emaFold] using hres

theorem emaFold_lt_emaFold (m1 m2 : ℚ) (hlt : m2 < m1) (hm1 : m1 ≤ 1) :
    ∀ (rest : List ℚ) (F S last : ℚ), S < F → S ≤ last →
      (last :: rest).Pairwise (· < ·) →
      emaFold m2 S rest < emaFold m1 F rest ∧
        emaFold m2 S rest ≤ (last :: rest).getLastD 0 := by
  intro rest
  induction rest with
  | nil => intro F S last hSF hSl _; exact ⟨hSF, by simpa [emaFold] using hSl⟩
  | cons x t ih =>
    intro F S last hSF hSl hsort
    obtain ⟨hhead, htail⟩ := List.pairwise_cons.mp hsort
    have hlx : last < x := hhead x (by simp)
    have hSx : S < x := lt_of_le_of_lt hSl hlx
    have hS' : emaStep m2 S x ≤ x :=
      emaStep_le m2 S x (le_of_lt (lt_of_lt_of_le hlt hm1)) (le_of_lt hSx)
    have hF' : emaStep m2 S x < emaStep m1 F x := by
      unfold emaStep
      nlinarith [mul_nonneg (sub_nonneg.mpr hm1) (sub_nonneg.mpr (le_of_lt hSF)),
        mul_pos (sub_pos.mpr hlt) (sub_pos.mpr hSx)]
    have hres := ih (emaStep m1 F x) (emaStep m2 S x) x hF' hS' htail
    refine ⟨?_, ?_⟩
    · simpa [emaFold] using hres.1
    · have hgl : (last :: x :: t).getLastD 0 = (x :: t).getLastD 0 := by
        simp [List.getLastD_cons]
      rw [hgl]
      simpa [emaFold] using hres.2

theorem getLastD_mem : ∀ (l : List ℚ), l ≠ [] → l.getLastD 0 ∈ l
  | [], h => absurd rfl h
  | [a], _ => by simp [List.getLastD_cons]
  | a :: b :: t, _ => by
    have := getLastD_mem (b :: t) (by simp)
    simp only [List.getLastD_cons] at *
    simp [List.mem_cons] at this ⊢
    tauto

theorem mem_le_getLastD : ∀ (l : List ℚ), l.Pairwise (· < ·) → l ≠ [] →
    ∀ y ∈ l, y ≤ l.getLastD 0
  | [], _, h => absurd rfl h
  | [a], _, _ => by simp [List.getLastD_cons]
  | a :: b :: t, hp, _ => by
    obtain ⟨hhead, htail⟩ := List.pairwise_cons.mp hp
    intro y hy
    have hrec := mem_le_getLastD (b :: t) htail (by simp)
    have hgl : (a :: b :: t).getLastD 0 = (b :: t).getLastD 0 := by
      simp [List.getLastD_cons]
    rw [hgl]
    rcases List.mem_cons.mp hy with rfl | hy2
    · have hmem := getLastD_mem (b :: t) (by simp)
      exact le_of_lt (hhead _ hmem)
    · exact hrec y hy2

theorem ema_fast_gt_slow (W : List ℚ) (p1 p2 : ℕ) (hp1 : 1 ≤ p1) (hlt : p1 < p2)
    (hlen : p2 ≤ W.length) (hsort : W.Pairwise (· < ·)) :
    emaFold (2 / ((p2 : ℚ) + 1)) (mean (W.take p2)) (W.drop p2) <
      emaFold (2 / ((p1 : ℚ) + 1)) (mean (W.take p1)) (W.drop p1) := by
  have hp1q : (1 : ℚ) ≤ (p1 : ℚ) := by exact_mod_cast hp1
  have hltq : (p1 : ℚ) < (p2 : ℚ) := by exact_mod_cast hlt
  have hm1le : 2 / ((p1 : ℚ) + 1) ≤ 1 := by
    rw [div_le_one (by positivity)]
    linarith
  have hmlt : 2 / ((p2 : ℚ) + 1) < 2 / ((p1 : ℚ) + 1) := by
    rw [div_lt_div_iff₀ (by positivity) (by positivity)]
    linarith
  have hsplit1 : W.take p2 = W.take p1 ++ (W.drop p1).take (p2 - p1) := by
    rw [show p2 = p1 + (p2 - p1) by omega, List.take_add, Nat.add_sub_cancel_left]
  have hdropdrop : (W.drop p1).drop (p2 - p1) = W.drop p2 := by
    rw [List.drop_drop]
    congr 1
    omega
  have hsplit2 : W.drop p1 = (W.drop p1).take (p2 - p1) ++ W.drop p2 := by
    conv_lhs => rw [← List.take_append_drop (p2 - p1) (W.drop p1)]
    rw [hdropdrop]
  have htake1_ne : W.take p1 ≠ [] := by
    intro hc
    have hl0 := congrArg List.length hc
    rw [List.length_take] at hl0
    simp only [List.length_nil] at hl0
    omega
  have hmid_ne : (W.drop p1).take (p2 - p1) ≠ [] := by
    intro hc
    have hl0 := congrArg List.length hc
    rw [List.length_take, List.length_drop] at hl0
    simp only [List.length_nil] at hl0
    omega
  have htake2_sorted : (W.take p2).Pairwise (· < ·) :=
    hsort.sublist (List.take_sublist p2 W)
  have hbase : mean (W.take p2) <
      emaFold (2 / ((p1 : ℚ) + 1)) (mean (W.take p1)) ((W.drop p1).take (p2 - p1)) := by
    rw [hsplit1]
    apply emaFold_gt_mean _ hm1le _ _ _ hmid_ne htake1_ne _ le_rfl
    · rw [← hsplit1]; exact htake2_sorted
    · have hlen1 : (W.take p1).length = p1 := by
        simp
        omega
      rw [hlen1]
      rw [div_lt_div_iff₀ (by positivity) (by positivity)]
      linarith
  have htake2_ne : W.take p2 ≠ [] := by
    intro hc
    have hl0 := congrArg List.length hc
    rw [List.length_take] at hl0
    simp only [List.length_nil] at hl0
    omega
  have hSlast : mean (W.take p2) ≤ (W.take p2).getLastD 0 :=
    mean_le _ _ htake2_ne (mem_le_getLastD _ htake2_sorted htake2_ne)
  have hpw : ((W.take p2).getLastD 0 :: W.drop p2).Pairwise (· < ·) := by
    rw [List.pairwise_cons]
    constructor
    · intro y hy
      have hrel := (List.pairwise_append.mp
        (by rw [List.take_append_drop p2 W]; exact hsort)).2.2
      exact hrel _ (getLastD_mem _ htake2_ne) y hy
    · exact hsort.sublist (List.drop_sublist p2 W)
  have hfin := emaFold_lt_emaFold (2 / ((p1 : ℚ) + 1)) (2 / ((p2 : ℚ) + 1)) hmlt hm1le
    (W.drop p2) (emaFold (2 / ((p1 : ℚ) + 1)) (mean (W.take p1)) ((W.drop p1).take (p2 - p1)))
    (mean (W.take p2)) ((W.take p2).getLastD 0) hbase hSlast hpw
  have hfast : emaFold (2 / ((p1 : ℚ) + 1)) (mean (W.take p1)) (W.drop p1) =
      emaFold (2 / ((p1 : ℚ) + 1))
        (emaFold (2 / ((p1 : ℚ) + 1)) (mean (W.take p1)) ((W.drop p1).take (p2 - p1)))
        (W.drop p2) := by
    conv_lhs => rw [hsplit2]
    rw [emaFold_append]
  rw [hfast]
  exact hfin.1

theorem takeLast_of_le {l : List α} (n : ℕ) (h : l.length ≤ n) : takeLast n l = l := by
  unfold takeLast
  rw [Nat.sub_eq_zero_of_le h, List.drop_zero]

theorem takeLast_append_singleton (n : ℕ) (l : List α) (a : α) :
    takeLast (n + 1) (l ++ [a]) = takeLast n l ++ [a] := by
  unfold takeLast
  simp only [List.length_append, List.length_cons, List.length_nil]
  rw [show l.length + (0 + 1) - (n + 1) = l.length - n by omega]
  rw [List.drop_append_of_le_length (by omega)]

theorem takeLast_takeLast (a b : ℕ) (l : List α) :
    takeLast a (takeLast b l) = takeLast (min a b) l := by
  unfold takeLast
  rw [List.drop_drop, List.length_drop]
  congr 1
  omega

theorem getLast?_drop (l : List α) (k : ℕ) (h : k < l.length) :
    (l.drop k).getLast? = l.getLast? := by
  rw [List.getLast?_eq_getElem?, List.getLast?_eq_getElem?, List.getElem?_drop,
    List.length_drop]
  congr 1
  omega

theorem lastDefined_takeLast (l : List (Option ℚ)) (n : ℕ) (hn : 1 ≤ n) (h : l ≠ []) :
    lastDefined (takeLast n l) = lastDefined l := by
  unfold lastDefined takeLast
  rw [getLast?_drop]
  have : 0 < l.length := List.length_pos.mpr h
  omega

theorem emaRun_prices (fp sp : ℕ) (ps : List ℚ) :
    (emaRun fp sp ps)._prices = takeLast 500 ps := by
  induction ps using List.reverseRecOn with
  | nil => rfl
  | append_singleton qs q ih =>
    rw [emaRun_snoc]
    simp only [EMAIndicator.update, ih]
    split
    · next hgt =>
      have hlt : (takeLast 500 qs).length = min 500 qs.length := length_takeLast 500 qs
      have hq : 500 ≤ qs.length := by
        simp only [List.length_append, List.length_cons, List.length_nil] at hgt
        omega
      calc takeLast 500 (takeLast 500 qs ++ [q])
          = takeLast 499 (takeLast 500 qs) ++ [q] := takeLast_append_singleton 499 _ q
        _ = takeLast 499 qs ++ [q] := by rw [takeLast_takeLast]; norm_num
        _ = takeLast 500 (qs ++ [q]) := (takeLast_append_singleton 499 qs q).symm
    · next hle =>
      have hlt : (takeLast 500 qs).length = min 500 qs.length := length_takeLast 500 qs
      have hq : qs.length ≤ 499 := by
        simp only [List.length_append, List.length_cons, List.length_nil, not_lt] at hle
        omega
      rw [takeLast_of_le 500 (by omega), takeLast_of_le 500 (by simp; omega)]

theorem emaRun_periods (fp sp : ℕ) (ps : List ℚ) :
    (emaRun fp sp ps).fast_period = fp ∧ (emaRun fp sp ps).slow_period = sp := by
  induction ps using List.reverseRecOn with
  | nil => exact ⟨rfl, rfl⟩
  | append_singleton qs q ih =>
    rw [emaRun_snoc]
    simp only [EMAIndicator.update]
    split <;> exact ih

theorem emaRun_values (fp sp : ℕ) (qs : List ℚ) (q : ℚ) :
    (emaRun fp sp (qs ++ [q])).fast_value =
      lastDefined (calculate_ema (takeLast 500 qs ++ [q]) fp) ∧
    (emaRun fp sp (qs ++ [q])).slow_value =
      lastDefined (calculate_ema (takeLast 500 qs ++ [q]) sp) := by
  rw [emaRun_snoc]
  simp only [EMAIndicator.update, EMAIndicator.fast_value, EMAIndicator.slow_value,
    emaRun_prices, (emaRun_periods fp sp qs).1, (emaRun_periods fp sp qs).2]
  split
  · constructor <;>
      exact lastDefined_takeLast _ 500 (by norm_num) (calculate_ema_ne_nil _ _ (by simp))
  · exact ⟨rfl, rfl⟩

theorem getLast?_map_some : ∀ l : List ℚ, (l.map some).getLast? = l.getLast?.map some
  | [] => rfl
  | [_] => rfl
  | a :: b :: t => by
    have h := getLast?_map_some (b :: t)
    simpa [List.getLast?_cons_cons] using h

theorem calculate_ema_lastDefined (prices : List ℚ) (period : ℕ)
    (hlen : period ≤ prices.length) :
    lastDefined (calculate_ema prices period) =
      some (emaFold (2 / ((period : ℚ) + 1)) (mean (prices.take period))
        (prices.drop period)) := by
  unfold calculate_ema lastDefined
  rw [if_neg (not_lt.mpr hlen)]
  rw [List.getLast?_append_of_ne_nil _ (by simp)]
  rw [getLast?_map_some, emaScan_cons_getLast]
  rfl

theorem calculate_rsi_ne_nil (prices : List ℚ) (period : ℕ) (h : prices ≠ []) :
    calculate_rsi prices period ≠ [] := by
  unfold calculate_rsi
  split
  · simpa using h
  · simp

theorem rsiRun_snoc (period : ℕ) (ps : List ℚ) (p : ℚ) :
    rsiRun period (ps ++ [p]) = (rsiRun period ps).update p := by
  simp [rsiRun, List.foldl_append]

theorem rsiRun_prices (period : ℕ) (ps : List ℚ) :
    (rsiRun period ps)._prices = takeLast 500 ps := by
  induction ps using List.reverseRecOn with
  | nil => rfl
  | append_singleton qs q ih =>
    rw [rsiRun_snoc]
    simp only [RSIIndicator.update, ih]
    split
    · next hgt =>
      have hlt : (takeLast 500 qs).length = min 500 qs.length := length_takeLast 500 qs
      have hq : 500 ≤ qs.length := by
        simp only [List.length_append, List.length_cons, List.length_nil] at hgt
        omega
      calc takeLast 500 (takeLast 500 qs ++ [q])
          = takeLast 499 (takeLast 500 qs) ++ [q] := takeLast_append_singleton 499 _ q
        _ = takeLast 499 qs ++ [q] := by rw [takeLast_takeLast]; norm_num
        _ = takeLast 500 (qs ++ [q]) := (takeLast_append_singleton 499 qs q).symm
    · next hle =>
      have hlt : (takeLast 500 qs).length = min 500 qs.length := length_takeLast 500 qs
      have hq : qs.length ≤ 499 := by
        simp only [List.length_append, List.length_cons, List.length_nil, not_lt] at hle
        omega
      rw [takeLast_of_le 500 (by omega), takeLast_of_le 500 (by simp; omega)]

theorem rsiRun_period (period : ℕ) (ps : List ℚ) :
    (rsiRun period ps).period = period := by
  induction ps using List.reverseRecOn with
  | nil => rfl
  | append_singleton qs q ih =>
    rw [rsiRun_snoc]
    simp only [RSIIndicator.update]
    split <;> exact ih

theorem rsiRun_value (period : ℕ) (qs : List ℚ) (q : ℚ) :
    (rsiRun period (qs ++ [q])).value =
      lastDefined (calculate_rsi (takeLast 500 qs ++ [q]) period) := by
  rw [rsiRun_snoc]
  simp only [RSIIndicator.update, RSIIndicator.value, rsiRun_prices, rsiRun_period]
  split
  · exact lastDefined_takeLast _ 500 (by norm_num) (calculate_rsi_ne_nil _ _ (by simp))
  · rfl

theorem priceChanges_pos : ∀ ps : List ℚ, ps.Pairwise (· < ·) →
    ∀ c ∈ priceChanges ps, 0 < c
  | [], _, c, hc => absurd hc (by simp [priceChanges])
  | [_], _, c, hc => absurd hc (by simp [priceChanges])
  | a :: b :: t, h, c, hc => by
    obtain ⟨hhead, htail⟩ := List.pairwise_cons.mp h
    have hab : a < b := hhead b (by simp)
    have hrec := priceChanges_pos (b :: t) htail
    simp only [priceChanges, List.drop_one, List.tail_cons, List.zipWith_cons_cons,
      List.mem_cons] at hc
    rcases hc with rfl | hc2
    · linarith
    · exact hrec c (by simpa [priceChanges, List.drop_one] using hc2)

theorem rsiScan_all_100 (period : ℕ) :
    ∀ (pairs : List (ℚ × ℚ)) (g : ℚ), (∀ pr ∈ pairs, pr.2 = 0) →
      ∀ v ∈ rsiScan period g 0 pairs, v = 100
  | [], _, _, v, hv => absurd hv (by simp [rsiScan])
  | gl :: rest, g, hz, v, hv => by
    have hl2 : gl.2 = 0 := hz gl (by simp)
    have hl' : (0 * ((period : ℚ) - 1) + gl.2) / period = 0 := by
      rw [hl2]
      simp
    simp only [rsiScan, hl', List.mem_cons] at hv
    rcases hv with rfl | hv
    · simp [rsiPoint]
    · exact rsiScan_all_100 period rest _ (fun pr hpr => hz pr (by simp [hpr])) v hv

theorem getLast?_mem_of_eq : ∀ (l : List ℚ) (v : ℚ), l.getLast? = some v → v ∈ l
  | [], v, h => by simp at h
  | [a], v, h => by
    simp only [List.getLast?_singleton, Option.some.injEq] at h
    simp [h]
  | a :: b :: t, v, h => by
    rw [List.getLast?_cons_cons] at h
    have := getLast?_mem_of_eq (b :: t) v h
    simp [List.mem_cons] at this ⊢
    tauto

theorem calculate_rsi_lastDefined_100 (prices : List ℚ) (period : ℕ)
    (hlen : period + 1 ≤ prices.length) (hsort : prices.Pairwise (· < ·)) :
    lastDefined (calculate_rsi prices period) = some 100 := by
  have hpos := priceChanges_pos prices hsort
  have hloss0 : ∀ y ∈ (priceChanges prices).map (fun c => |min 0 c|), y = 0 := by
    intro y hy
    obtain ⟨c, hc, rfl⟩ := List.mem_map.mp hy
    rw [min_eq_left (le_of_lt (hpos c hc)), abs_zero]
  have havg : mean (((priceChanges prices).map (fun c => |min 0 c|)).take period) = 0 := by
    unfold mean
    rw [List.sum_eq_zero (fun y hy => hloss0 y (List.mem_of_mem_take hy))]
    simp
  unfold calculate_rsi lastDefined
  rw [if_neg (not_lt.mpr hlen)]
  rw [List.getLast?_append_of_ne_nil _ (by simp)]
  rw [getLast?_map_some]
  simp only [havg]
  rcases hgl : (rsiPoint (mean (((priceChanges prices).map (fun c => max 0 c)).take period)) 0 ::
      rsiScan period (mean (((priceChanges prices).map (fun c => max 0 c)).take period)) 0
        ((((priceChanges prices).map (fun c => max 0 c)).drop period).zip
          (((priceChanges prices).map (fun c => |min 0 c|)).drop period))).getLast?
    with _ | v
  · exact absurd hgl (by simp)
  · have hv100 : v = 100 := by
      have hmem := getLast?_mem_of_eq _ _ hgl
      rcases List.mem_cons.mp hmem with rfl | hmem2
      · simp [rsiPoint]
      · refine rsiScan_all_100 period _ _ ?_ v hmem2
        intro pr hpr
        exact hloss0 pr.2 (List.mem_of_mem_drop (List.of_mem_zip hpr).2)
    simp [hv100]

theorem takeLast_sublist (n : ℕ) (l : List α) : (takeLast n l).Sublist l := by
  unfold takeLast
  exact List.drop_sublist _ _

/-- C5 (amended): for every strictly increasing price series longer than the
configured EMA slow period and RSI period (each within the 500-entry history
cap), the EMA indicator reports bullish — the fast EMA ends strictly above
the slow EMA — and the RSI value is exactly 100, hence above 50.  The
original claim's further conclusions (MACD bullish, LONG score strictly
above SHORT) fail for some such series; see the counterexample. -/
theorem c5_increasing_series (fp sp rp : ℕ) (ps : List ℚ)
    (hsort : ps.Pairwise (· < ·)) (hfp : 1 ≤ fp) (hlt : fp < sp)
    (hsp_len : sp < ps.length) (hsp500 : sp ≤ 500)
    (hrp_len : rp < ps.length) (hrp500 : rp ≤ 500) :
    (emaRun fp sp ps).is_bullish = true ∧ (rsiRun rp ps).value = some 100 := by
  rcases List.eq_nil_or_concat ps with rfl | ⟨qs, q, rfl⟩
  · simp at hsp_len
  rw [List.concat_eq_append] at hsort hsp_len hrp_len ⊢
  have hW : takeLast 500 qs ++ [q] = takeLast 501 (qs ++ [q]) :=
    (takeLast_append_singleton 500 qs q).symm
  have hWlen : (takeLast 501 (qs ++ [q])).length = min 501 (qs ++ [q]).length :=
    length_takeLast _ _
  have hlen_ps : (qs ++ [q]).length = qs.length + 1 := by simp
  have hWsort : (takeLast 501 (qs ++ [q])).Pairwise (· < ·) :=
    hsort.sublist (takeLast_sublist _ _)
  have hsp_le : sp ≤ (takeLast 501 (qs ++ [q])).length := by
    rw [hWlen]
    omega
  constructor
  · obtain ⟨hfv, hsv⟩ := emaRun_values fp sp qs q
    rw [hW] at hfv hsv
    have hfp_le : fp ≤ (takeLast 501 (qs ++ [q])).length := by omega
    rw [calculate_ema_lastDefined _ fp hfp_le] at hfv
    rw [calculate_ema_lastDefined _ sp hsp_le] at hsv
    have hgt := ema_fast_gt_slow (takeLast 501 (qs ++ [q])) fp sp hfp hlt hsp_le hWsort
    unfold EMAIndicator.is_bullish
    rw [hfv, hsv]
    exact decide_eq_true hgt
  · rw [rsiRun_value rp qs q, hW]
    refine calculate_rsi_lastDefined_100 _ rp ?_ hWsort
    rw [hWlen]
    omega

/-- Counterexample for C5: `decelSeries` is strictly increasing and longer
than every configured indicator period (EMA 9/21, MACD 12/26/9, RSI 14,
ATR 14), EMA is bullish and RSI is 100, yet MACD reports bearish (its line
ends below the signal line), and with constant open interest and funding the
LONG confluence score (10) is strictly below the SHORT score (40). -/
theorem c5_counterexample :
    decelSeries.Pairwise (· < ·) ∧
    decelSeries.length = 35 ∧
    (9 < decelSeries.length ∧ 21 < decelSeries.length ∧ 12 < decelSeries.length ∧
      26 < decelSeries.length ∧ 14 < decelSeries.length) ∧
    (emaRun 9 21 decelSeries).is_bullish = true ∧
    (rsiRun 14 decelSeries).value = some 100 ∧
    (macdRun 12 26 9 decelSeries).is_bullish = false ∧
    (StrategyEngine.calculate_long_score
      (StrategyEngine.evaluate_indicators decelState)).1 = 10 ∧
    (StrategyEngine.calculate_short_score
      (StrategyEngine.evaluate_indicators decelState)).1 = 40 := by
  refine ⟨by with_unfolding_all decide, by with_unfolding_all decide,
    by with_unfolding_all decide, by with_unfolding_all decide,
    by with_unfolding_all decide, by with_unfolding_all decide,
    by with_unfolding_all decide, by with_unfolding_all decide⟩

/-- Witness for C5 (amended) at the default EMA periods 9/21 and RSI period
14 on the strictly increasing series 1..22. -/
theorem c5_increasing_series_witness :
    ([1, 2, 3, 4, 5, 6, 7, 8, 9, 10, 11, 12, 13, 14, 15, 16, 17, 18, 19, 20, 21, 22] :
        List ℚ).Pairwise (· < ·) ∧
    ((emaRun 9 21 [1, 2, 3, 4, 5, 6, 7, 8, 9, 10, 11, 12, 13, 14, 15, 16, 17, 18, 19,
        20, 21, 22]).is_bullish = true ∧
      (rsiRun 14 [1, 2, 3, 4, 5, 6, 7, 8, 9, 10, 11, 12, 13, 14, 15, 16, 17, 18, 19,
        20, 21, 22]).value = some 100) :=
  ⟨by with_unfolding_all decide,
    c5_increasing_series 9 21 14
      [1, 2, 3, 4, 5, 6, 7, 8, 9, 10, 11, 12, 13, 14, 15, 16, 17, 18, 19, 20, 21, 22]
      (by with_unfolding_all decide) (by decide) (by decide) (by decide) (by decide)
      (by decide) (by decide)⟩
